import Mathlib

/-!
Verification of the crystaldb kind-based serialization engine.

The TypeScript source is shallowly embedded: JavaScript runtime values
become the inductive `JsVal` (numbers as exact rationals plus the IEEE
special values; the float formatting of error-message interpolation and
the platform date parser are abstracted behind an explicit `Env`),
thrown exceptions become `Except JsErr`, and the module-level mutable
kind registry becomes explicit state passing.  Each embedded definition
mirrors one exported function of the repository, keeping its name.
-/

set_option autoImplicit false

namespace CrystalDB

/-- JavaScript numbers: exact rationals plus NaN and the two infinities.
(IEEE-754 rounding of arithmetic is abstracted away; the operations the
claims exercise — `*100`, `/100`, `Math.round`, comparisons — are exact
on the inputs involved.) -/
inductive JsNum where
  | fin (q : ℚ)
  | nan
  | posInf
  | negInf
deriving DecidableEq

/-- `Number.isFinite` / `!Number.isNaN && isFinite` on a number. -/
def JsNum.isFinite : JsNum → Bool
  | .fin _ => true
  | _ => false

/-- `Number.isNaN`. -/
def JsNum.isNaN : JsNum → Bool
  | .nan => true
  | _ => false

/-- The JS `<` comparison on numbers (false whenever NaN is involved). -/
def JsNum.lt : JsNum → JsNum → Bool
  | .fin a, .fin b => decide (a < b)
  | .fin _, .posInf => true
  | .negInf, .fin _ => true
  | .negInf, .posInf => true
  | _, _ => false

/-- The JS `>` comparison on numbers. -/
def JsNum.gt (a b : JsNum) : Bool := JsNum.lt b a

/-- Multiplication by a positive rational constant (`value * 100`). -/
def JsNum.mulConst (n : JsNum) (c : ℚ) : JsNum :=
  match n with
  | .fin q => .fin (q * c)
  | x => x

/-- Division by a positive rational constant (`value / 100`). -/
def JsNum.divConst (n : JsNum) (c : ℚ) : JsNum :=
  match n with
  | .fin q => .fin (q / c)
  | x => x

/-- `Math.round`: round half towards positive infinity, i.e. `⌊x + 1/2⌋`. -/
def JsNum.round : JsNum → JsNum
  | .fin q => .fin ((⌊q + 1/2⌋ : ℤ) : ℚ)
  | x => x

/-- Display of a number inside an error message (models JS number
ToString; the exact decimal rendering of non-integers is immaterial to
every claim and is abstracted by a num/den rendering). -/
def JsNum.toDisplay : JsNum → String
  | .nan => "NaN"
  | .posInf => "Infinity"
  | .negInf => "-Infinity"
  | .fin q =>
    if q.den = 1 then toString q.num else toString q.num ++ "/" ++ toString q.den

/-- JavaScript runtime values as the codecs see them.  Objects are
insertion-ordered own-property lists (keys unique); `dateObj` is a valid
`Date` instance carrying its epoch-milliseconds. -/
inductive JsVal where
  | null
  | undefined
  | boolean (b : Bool)
  | number (n : JsNum)
  | string (s : String)
  | object (fields : List (String × JsVal))
  | array (elems : List JsVal)
  | dateObj (ms : ℤ)

/-- `typeof` (note `typeof null`, arrays and dates are `"object"`). -/
def JsVal.typeName : JsVal → String
  | .null => "object"
  | .undefined => "undefined"
  | .boolean _ => "boolean"
  | .number _ => "number"
  | .string _ => "string"
  | .object _ => "object"
  | .array _ => "object"
  | .dateObj _ => "object"

/-- `value === null || value === undefined`. -/
def JsVal.isNullish : JsVal → Bool
  | .null => true
  | .undefined => true
  | _ => false

/-- `value === null`. -/
def JsVal.isNull : JsVal → Bool
  | .null => true
  | _ => false

/-- `typeof value === "number"` (NaN and infinities included). -/
def JsVal.isNumber : JsVal → Bool
  | .number _ => true
  | _ => false

/-- A number passing `typeof === "number" && !isNaN && isFinite`. -/
def JsVal.isFiniteNumber : JsVal → Bool
  | .number (.fin _) => true
  | _ => false

/-- JS truthiness. -/
def JsVal.truthy : JsVal → Bool
  | .null => false
  | .undefined => false
  | .boolean b => b
  | .number (.fin q) => decide (q ≠ 0)
  | .number .nan => false
  | .number _ => true
  | .string s => decide (s ≠ "")
  | .object _ => true
  | .array _ => true
  | .dateObj _ => true

/-- `Array.isArray`. -/
def JsVal.isArr : JsVal → Bool
  | .array _ => true
  | _ => false

/-- First binding of a key in an association list (JS objects hold each
key at most once, so this is the binding). -/
def alistGet {α : Type} : List (String × α) → String → Option α
  | [], _ => none
  | e :: rest, key => if e.1 = key then some e.2 else alistGet rest key

/-- Key-membership test. -/
def alistHas {α : Type} (l : List (String × α)) (key : String) : Bool :=
  (alistGet l key).isSome

/-- `m[key] = v` / `Map.set`: replace the binding in place when the key
exists, append it otherwise (JS insertion-order semantics). -/
def alistSet {α : Type} : List (String × α) → String → α → List (String × α)
  | [], key, v => [(key, v)]
  | e :: rest, key, v =>
    if e.1 = key then (key, v) :: rest else e :: alistSet rest key v

/-- `delete m[key]`. -/
def alistRemove {α : Type} : List (String × α) → String → List (String × α)
  | [], _ => []
  | e :: rest, key =>
    if e.1 = key then alistRemove rest key else e :: alistRemove rest key

/-- Property read on an object record: absent keys read as `undefined`. -/
def objGet (fields : List (String × JsVal)) (key : String) : JsVal :=
  (alistGet fields key).getD .undefined

/-- `value.key` on an arbitrary value (only ever used after the source's
own object guards; non-objects have none of the properties we read). -/
def JsVal.getProp : JsVal → String → JsVal
  | .object fields, key => objGet fields key
  | _, _ => .undefined

/-- `"key" in value`. -/
def JsVal.hasProp : JsVal → String → Bool
  | .object fields, key => alistHas fields key
  | _, _ => false

/-- `String(value)` (models the JS ToString coercion; array rendering
joins the coerced elements, nested detail abstracted as no claim reads
these strings). -/
def JsVal.coerceToString : JsVal → String
  | .null => "null"
  | .undefined => "undefined"
  | .boolean true => "true"
  | .boolean false => "false"
  | .number n => n.toDisplay
  | .string s => s
  | .object _ => "[object Object]"
  | .array _ => "[array]"
  | .dateObj ms => "[Date " ++ toString ms ++ "]"

/-- Thrown JS exceptions, by constructor used in the source. -/
inductive JsErr where
  | typeErr (msg : String)
  | rangeErr (msg : String)
  | genErr (msg : String)
deriving DecidableEq

/-- The ambient JS platform facilities the source leans on: `new
Date(string)` parsing (`none` models an Invalid Date), `toISOString`,
and the clock read by `new Date()`. -/
structure Env where
  parseDate : String → Option ℤ
  isoOf : ℤ → String
  nowMs : ℤ

/-! ### Value codecs, one namespace per kind module of the source. -/

namespace stringKind

/-- `kinds/string` serialize: coerces any non-nullish value to string. -/
def serialize (value : JsVal) : Except JsErr JsVal :=
  if value.isNullish then .ok .null
  else
    match value with
    | .string s => .ok (.string s)
    | v => .ok (.string v.coerceToString)

/-- `kinds/string` deserialize (same coercion). -/
def deserialize (value : JsVal) : Except JsErr JsVal :=
  if value.isNullish then .ok .null
  else
    match value with
    | .string s => .ok (.string s)
    | v => .ok (.string v.coerceToString)

end stringKind

namespace markdownKind

/-- `kinds/markdown` serialize: strict string type. -/
def serialize (value : JsVal) : Except JsErr JsVal :=
  if value.isNullish then .ok .null
  else
    match value with
    | .string s => .ok (.string s)
    | v => .error (.typeErr ("Markdown value must be a string, received " ++ v.typeName))

/-- `kinds/markdown` deserialize: strict string type. -/
def deserialize (value : JsVal) : Except JsErr JsVal :=
  if value.isNullish then .ok .null
  else
    match value with
    | .string s => .ok (.string s)
    | v => .error (.typeErr ("Markdown value must be a string, received " ++ v.typeName))

end markdownKind

namespace numberKind

/-- `kinds/number` ensureNumber: rejects non-numbers, NaN and infinities. -/
def ensureNumber (value : JsVal) : Except JsErr JsNum :=
  match value with
  | .number (.fin q) => .ok (.fin q)
  | v =>
    .error (.typeErr ("Number value must be a finite number, received " ++ v.coerceToString))

/-- `kinds/number` serialize. -/
def serialize (value : JsVal) : Except JsErr JsVal :=
  if value.isNullish then .ok .null
  else do
    let n ← ensureNumber value
    .ok (.number n)

/-- `kinds/number` deserialize. -/
def deserialize (value : JsVal) : Except JsErr JsVal :=
  if value.isNullish then .ok .null
  else do
    let n ← ensureNumber value
    .ok (.number n)

end numberKind

namespace booleanKind

/-- `kinds/boolean` serialize: accepts booleans plus the exact strings
"true"/"false". -/
def serialize (value : JsVal) : Except JsErr JsVal :=
  if value.isNullish then .ok .null
  else
    match value with
    | .boolean b => .ok (.boolean b)
    | .string "true" => .ok (.boolean true)
    | .string "false" => .ok (.boolean false)
    | v => .error (.typeErr ("Boolean value must be true/false, received " ++ v.typeName))

/-- `kinds/boolean` deserialize: booleans only. -/
def deserialize (value : JsVal) : Except JsErr JsVal :=
  if value.isNullish then .ok .null
  else
    match value with
    | .boolean b => .ok (.boolean b)
    | v => .error (.typeErr ("Stored boolean must be a boolean, received " ++ v.typeName))

end booleanKind

namespace percentageKind

/-- `BASIS_POINTS` constant of `kinds/percentage`. -/
def BASIS_POINTS : ℚ := 100

/-- `coercePercentageValue`: `none` models the coerced-null outcome,
`some n` the `{ value: n }` wrapper. -/
def coercePercentageValue (value : JsVal) : Except JsErr (Option JsNum) :=
  if value.isNullish then .ok none
  else
    match value with
    | .number n => .ok (some n)
    | v =>
      if v.typeName = "object" ∧ v.hasProp "value" then
        match v.getProp "value" with
        | .number n => .ok (some n)
        | t =>
          .error (.typeErr ("Percentage value must be numeric, received " ++ t.typeName))
      else
        .error (.typeErr
          "Percentage value must be a number or an object with a numeric \"value\" property")

/-- `kinds/percentage` serialize: range-checks [0, 100] then stores
rounded basis points. -/
def serialize (value : JsVal) : Except JsErr JsVal := do
  let coerced ← coercePercentageValue value
  match coerced with
  | none => .ok .null
  | some n =>
    if n.lt (.fin 0) || n.gt (.fin 100) then
      .error (.rangeErr
        ("Percentage value must be between 0 and 100, received " ++ n.toDisplay))
    else
      .ok (.number ((n.mulConst BASIS_POINTS).round))

/-- `kinds/percentage` deserialize: divides stored basis points by 100,
with no range check. -/
def deserialize (value : JsVal) : Except JsErr JsVal :=
  if value.isNullish then .ok .null
  else
    match value with
    | .number n => .ok (.object [("value", .number (n.divConst BASIS_POINTS))])
    | v =>
      .error (.typeErr
        ("Stored percentage must be a number of basis points, received " ++ v.typeName))

end percentageKind

namespace numberRangeKind

/-- `kinds/numberRange` ensureNumber (message interpolates the value). -/
def ensureNumber (value : JsVal) (label : String) : Except JsErr ℚ :=
  match value with
  | .number (.fin q) => .ok q
  | v =>
    .error (.typeErr (label ++ " must be a finite number, received " ++ v.coerceToString))

/-- `kinds/numberRange` sanitize: validates both bounds and their order,
rebuilding the object with only start/end (plus truthy metadata). -/
def sanitize (value : JsVal) : Except JsErr JsVal := do
  let s ← ensureNumber (value.getProp "start") "numberRange.start"
  let e ← ensureNumber (value.getProp "end") "numberRange.end"
  if s > e then
    .error (.rangeErr "numberRange.start must be <= numberRange.end")
  else
    let base := [("start", JsVal.number (.fin s)), ("end", JsVal.number (.fin e))]
    if (value.getProp "metadata").truthy then
      .ok (.object (base ++ [("metadata", value.getProp "metadata")]))
    else
      .ok (.object base)

/-- `kinds/numberRange` serialize. -/
def serialize (value : JsVal) : Except JsErr JsVal :=
  if value.isNullish then .ok .null
  else if value.typeName ≠ "object" ∨ value.isArr then
    .error (.typeErr "NumberRange must be an object with start/end")
  else sanitize value

/-- `kinds/numberRange` deserialize (same sanitize). -/
def deserialize (value : JsVal) : Except JsErr JsVal :=
  if value.isNullish then .ok .null
  else if value.typeName ≠ "object" ∨ value.isArr then
    .error (.typeErr "Stored number range must be an object")
  else sanitize value

end numberRangeKind

namespace distanceKind

/-- `kinds/distance` ensureNumber. -/
def ensureNumber (value : JsVal) (label : String) : Except JsErr ℚ :=
  match value with
  | .number (.fin q) => .ok q
  | _ => .error (.typeErr (label ++ " must be a finite number"))

/-- `kinds/distance` normalize. -/
def normalize (value : JsVal) : Except JsErr JsVal := do
  let n ← ensureNumber (value.getProp "value") "distance.value"
  let base := [("value", JsVal.number (.fin n))]
  let withUnit :=
    if (value.getProp "unit").truthy then base ++ [("unit", value.getProp "unit")] else base
  if (value.getProp "metadata").truthy then
    .ok (.object (withUnit ++ [("metadata", value.getProp "metadata")]))
  else
    .ok (.object withUnit)

/-- `kinds/distance` serialize. -/
def serialize (value : JsVal) : Except JsErr JsVal :=
  if value.isNullish then .ok .null
  else if value.typeName ≠ "object" ∨ value.isArr then
    .error (.typeErr "Distance value must be an object with a numeric 'value'")
  else normalize value

/-- `kinds/distance` deserialize. -/
def deserialize (value : JsVal) : Except JsErr JsVal :=
  if value.isNullish then .ok .null
  else if value.typeName ≠ "object" ∨ value.isArr then
    .error (.typeErr "Stored distance must be an object")
  else normalize value

end distanceKind

/-- Helper for the source's `if (value.f) { out.f = value.f }` pattern:
append the field only when the value is truthy. -/
def addIfTruthy (fields : List (String × JsVal)) (key : String) (v : JsVal) :
    List (String × JsVal) :=
  if v.truthy then fields ++ [(key, v)] else fields

namespace monthKind

/-- The `MONTH_RE` regex `^\d{4}-(0[1-9]|1[0-2])$` as a decidable test
(applied to the ToString coercion, as `RegExp.test` coerces). -/
def monthMatches (s : String) : Bool :=
  match s.toList with
  | [a, b, c, d, dash, m1, m2] =>
    a.isDigit && b.isDigit && c.isDigit && d.isDigit && dash = '-' &&
      ((m1 = '0' && m2.isDigit && m2 ≠ '0') ||
        (m1 = '1' && (m2 = '0' || m2 = '1' || m2 = '2')))
  | _ => false

/-- `kinds/month` normalize: regex-validates `value.month`, rebuilds
`{ month, metadata }` (metadata copied unconditionally). -/
def normalize (value : JsVal) : Except JsErr JsVal :=
  let m := value.getProp "month"
  if monthMatches m.coerceToString = false then
    .error (.typeErr
      ("Month value must match YYYY-MM, received \"" ++ m.coerceToString ++ "\""))
  else
    .ok (.object [("month", m), ("metadata", value.getProp "metadata")])

/-- `kinds/month` serialize. -/
def serialize (value : JsVal) : Except JsErr JsVal :=
  if value.isNullish then .ok .null
  else
    match value with
    | .string s => normalize (.object [("month", .string s)])
    | v =>
      if v.typeName = "object" ∧ v.hasProp "month" then normalize v
      else
        .error (.typeErr "Month value must be a string or \x7b month: \"YYYY-MM\" \x7d object")

/-- `kinds/month` deserialize. -/
def deserialize (value : JsVal) : Except JsErr JsVal :=
  if value.isNullish then .ok .null
  else
    match value with
    | .string s => normalize (.object [("month", .string s)])
    | v =>
      if v.typeName = "object" ∧ v.hasProp "month" then normalize v
      else .error (.typeErr "Stored month must be a string or { month } object")

end monthKind

namespace enumKind

/-- `kinds/enum` normalize: requires a truthy string `key`, keeps truthy
`label`/`metadata`. -/
def normalize (value : JsVal) : Except JsErr JsVal :=
  let k := value.getProp "key"
  if !k.truthy || k.typeName ≠ "string" then
    .error (.typeErr "Enum value requires a string 'key'")
  else
    .ok (.object (addIfTruthy (addIfTruthy [("key", k)] "label" (value.getProp "label"))
      "metadata" (value.getProp "metadata")))

/-- `kinds/enum` serialize. -/
def serialize (value : JsVal) : Except JsErr JsVal :=
  if value.isNullish then .ok .null
  else
    match value with
    | .string s => normalize (.object [("key", .string s)])
    | v =>
      if v.typeName = "object" ∧ v.hasProp "key" then normalize v
      else .error (.typeErr "Enum value must be a string or { key } object")

/-- `kinds/enum` deserialize. -/
def deserialize (value : JsVal) : Except JsErr JsVal :=
  if value.isNullish then .ok .null
  else
    match value with
    | .string s => normalize (.object [("key", .string s)])
    | v =>
      if v.typeName = "object" ∧ v.hasProp "key" then normalize v
      else .error (.typeErr "Stored enum value must be a string or { key } object")

end enumKind

namespace iconKind

/-- `kinds/icon` normalize: requires a truthy string `name`, keeps
truthy `color`/`library`/`metadata`. -/
def normalize (value : JsVal) : Except JsErr JsVal :=
  let n := value.getProp "name"
  if !n.truthy || n.typeName ≠ "string" then
    .error (.typeErr "Icon value requires a string 'name'")
  else
    .ok (.object (addIfTruthy (addIfTruthy (addIfTruthy [("name", n)]
      "color" (value.getProp "color")) "library" (value.getProp "library"))
      "metadata" (value.getProp "metadata")))

/-- `kinds/icon` serialize. -/
def serialize (value : JsVal) : Except JsErr JsVal :=
  if value.isNullish then .ok .null
  else
    match value with
    | .string s => normalize (.object [("name", .string s)])
    | v =>
      if v.typeName = "object" ∧ v.hasProp "name" then normalize v
      else .error (.typeErr "Icon value must be a string or { name } object")

/-- `kinds/icon` deserialize. -/
def deserialize (value : JsVal) : Except JsErr JsVal :=
  if value.isNullish then .ok .null
  else
    match value with
    | .string s => normalize (.object [("name", .string s)])
    | v =>
      if v.typeName = "object" ∧ v.hasProp "name" then normalize v
      else .error (.typeErr "Stored icon must be a string or { name } object")

end iconKind

namespace formulaKind

/-- `kinds/formula` normalize: requires a truthy string `expression`,
keeps `result` when the property exists (even nullish) and truthy
`metadata`. -/
def normalize (value : JsVal) : Except JsErr JsVal :=
  let e := value.getProp "expression"
  if !e.truthy || e.typeName ≠ "string" then
    .error (.typeErr "Formula requires a string 'expression'")
  else
    let base := [("expression", e)]
    let withResult :=
      if value.hasProp "result" then base ++ [("result", value.getProp "result")] else base
    .ok (.object (addIfTruthy withResult "metadata" (value.getProp "metadata")))

/-- `kinds/formula` serialize: a bare string becomes `{ expression }`
directly, without normalize. -/
def serialize (value : JsVal) : Except JsErr JsVal :=
  if value.isNullish then .ok .null
  else
    match value with
    | .string s => .ok (.object [("expression", .string s)])
    | v =>
      if v.typeName = "object" ∧ v.hasProp "expression" then normalize v
      else .error (.typeErr "Formula value must be a string or { expression } object")

/-- `kinds/formula` deserialize. -/
def deserialize (value : JsVal) : Except JsErr JsVal :=
  if value.isNullish then .ok .null
  else
    match value with
    | .string s => .ok (.object [("expression", .string s)])
    | v =>
      if v.typeName = "object" ∧ v.hasProp "expression" then normalize v
      else .error (.typeErr "Stored formula must be a string or { expression } object")

end formulaKind

namespace referenceKind

/-- `kinds/reference` sanitizeReference: requires truthy `unitId` and
`unitType`, stringifies them, keeps truthy metadata. -/
def sanitizeReference (value : JsVal) : Except JsErr JsVal :=
  if !(value.getProp "unitId").truthy then
    .error (.typeErr "Reference value requires a \"unitId\" field")
  else if !(value.getProp "unitType").truthy then
    .error (.typeErr "Reference value requires a \"unitType\" field")
  else
    .ok (.object (addIfTruthy
      [("unitId", .string (value.getProp "unitId").coerceToString),
        ("unitType", .string (value.getProp "unitType").coerceToString)]
      "metadata" (value.getProp "metadata")))

/-- `kinds/reference` serialize. -/
def serialize (value : JsVal) : Except JsErr JsVal :=
  if value.isNullish then .ok .null
  else if value.typeName ≠ "object" ∨ value.isArr then
    .error (.typeErr "Reference value must be an object")
  else sanitizeReference value

/-- `kinds/reference` deserialize. -/
def deserialize (value : JsVal) : Except JsErr JsVal :=
  if value.isNullish then .ok .null
  else if value.typeName ≠ "object" ∨ value.isArr then
    .error (.typeErr "Stored reference value must be an object")
  else sanitizeReference value

end referenceKind

namespace geoAddressKind

/-- `kinds/geoAddress` ensureNumber. -/
def ensureNumber (value : JsVal) (name : String) : Except JsErr ℚ :=
  match value with
  | .number (.fin q) => .ok q
  | _ => .error (.typeErr (name ++ " must be a finite number"))

/-- `kinds/geoAddress` sanitizeGeoAddress: keeps truthy fields, and
validates both coordinates when `coordinates` is truthy. -/
def sanitizeGeoAddress (value : JsVal) : Except JsErr JsVal := do
  let base := addIfTruthy (addIfTruthy (addIfTruthy (addIfTruthy (addIfTruthy
    (addIfTruthy (addIfTruthy [] "label" (value.getProp "label"))
      "street" (value.getProp "street")) "city" (value.getProp "city"))
      "postalCode" (value.getProp "postalCode")) "region" (value.getProp "region"))
      "country" (value.getProp "country")) "metadata" (value.getProp "metadata")
  let coords := value.getProp "coordinates"
  if coords.truthy then
    let lat ← ensureNumber (coords.getProp "latitude") "GeoAddress latitude"
    let lng ← ensureNumber (coords.getProp "longitude") "GeoAddress longitude"
    .ok (.object (base ++ [("coordinates", .object
      [("latitude", .number (.fin lat)), ("longitude", .number (.fin lng))])]))
  else
    .ok (.object base)

/-- `kinds/geoAddress` serialize. -/
def serialize (value : JsVal) : Except JsErr JsVal :=
  if value.isNullish then .ok .null
  else if value.typeName ≠ "object" ∨ value.isArr then
    .error (.typeErr "GeoAddress value must be an object")
  else sanitizeGeoAddress value

/-- `kinds/geoAddress` deserialize. -/
def deserialize (value : JsVal) : Except JsErr JsVal :=
  if value.isNullish then .ok .null
  else if value.typeName ≠ "object" ∨ value.isArr then
    .error (.typeErr "Stored geoAddress value must be an object")
  else sanitizeGeoAddress value

end geoAddressKind

namespace filesKind

/-- `kinds/files` ensureFile: requires a truthy string `id`, keeps
truthy optional fields. -/
def ensureFile (value : JsVal) : Except JsErr JsVal :=
  let i := value.getProp "id"
  if !i.truthy || i.typeName ≠ "string" then
    .error (.typeErr "File resource requires a string 'id'")
  else
    .ok (.object (addIfTruthy (addIfTruthy (addIfTruthy (addIfTruthy (addIfTruthy
      [("id", i)] "name" (value.getProp "name")) "url" (value.getProp "url"))
      "size" (value.getProp "size")) "mimeType" (value.getProp "mimeType"))
      "metadata" (value.getProp "metadata")))

/-- `kinds/files` coerceArray: maps `ensureFile` over an array,
rejecting non-arrays and non-object entries. -/
def coerceArray (value : JsVal) : Except JsErr JsVal :=
  match value with
  | .array entries => do
    let out ← entries.mapM (fun entry =>
      if entry.typeName ≠ "object" ∨ entry.isNull then
        .error (.typeErr "File entry must be an object")
      else ensureFile entry)
    .ok (.array out)
  | _ => .error (.typeErr "Files value must be an array of file descriptors")

/-- `kinds/files` serialize. -/
def serialize (value : JsVal) : Except JsErr JsVal :=
  if value.isNullish then .ok .null
  else coerceArray value

/-- `kinds/files` deserialize. -/
def deserialize (value : JsVal) : Except JsErr JsVal :=
  if value.isNullish then .ok .null
  else coerceArray value

end filesKind

/-- `new Date(x)` for the argument shapes reachable here; `none` is an
Invalid Date.  Object arguments other than `Date` instances are
modelled as invalid. -/
def jsNewDate (env : Env) : JsVal → Option ℤ
  | .string s => env.parseDate s
  | .number (.fin q) => some ⌊q⌋
  | .number _ => none
  | .dateObj ms => some ms
  | .boolean b => some (if b then 1 else 0)
  | .null => some 0
  | _ => none

namespace dateKind

/-- `kinds/date` ensureIso: parse, reject Invalid Date, re-render
canonically via `toISOString`. -/
def ensureIso (env : Env) (value : JsVal) : Except JsErr String :=
  match jsNewDate env value with
  | none => .error (.typeErr ("Invalid date value \"" ++ value.coerceToString ++ "\""))
  | some ms => .ok (env.isoOf ms)

/-- `kinds/date` normalize: `{ iso: ensureIso(value.iso), metadata:
value.metadata }` (metadata copied unconditionally). -/
def normalize (env : Env) (value : JsVal) : Except JsErr JsVal := do
  let iso ← ensureIso env (value.getProp "iso")
  .ok (.object [("iso", .string iso), ("metadata", value.getProp "metadata")])

/-- `kinds/date` serialize. -/
def serialize (env : Env) (value : JsVal) : Except JsErr JsVal :=
  if value.isNullish then .ok .null
  else
    match value with
    | .dateObj ms => .ok (.object [("iso", .string (env.isoOf ms))])
    | .string s => do
      let iso ← ensureIso env (.string s)
      .ok (.object [("iso", .string iso)])
    | v =>
      if v.typeName = "object" ∧ v.hasProp "iso" then normalize env v
      else .error (.typeErr "Date value must be a Date, ISO string, or { iso } object")

/-- `kinds/date` deserialize. -/
def deserialize (env : Env) (value : JsVal) : Except JsErr JsVal :=
  if value.isNullish then .ok .null
  else
    match value with
    | .string s => do
      let iso ← ensureIso env (.string s)
      .ok (.object [("iso", .string iso)])
    | v =>
      if v.typeName = "object" ∧ v.hasProp "iso" then normalize env v
      else .error (.typeErr "Stored date must be an ISO string or { iso } object")

end dateKind

namespace dateRangeKind

/-- The `start.iso > end.iso` string comparison (both operands are
`{ iso }` objects produced by the date serializer). -/
def isoGt (s e : JsVal) : Bool :=
  match s.getProp "iso", e.getProp "iso" with
  | .string a, .string b => decide (b < a)
  | _, _ => false

/-- `kinds/dateRange` normalize: encodes both bounds through the date
codec, requires both present, enforces `start.iso <= end.iso`. -/
def normalize (env : Env) (value : JsVal) : Except JsErr JsVal := do
  let s ← dateKind.serialize env (value.getProp "start")
  let e ← dateKind.serialize env (value.getProp "end")
  if !s.truthy || !e.truthy then
    .error (.typeErr "Date range requires both start and end dates")
  else if isoGt s e then
    .error (.rangeErr "dateRange.start must be <= dateRange.end")
  else
    .ok (.object (addIfTruthy [("start", s), ("end", e)]
      "metadata" (value.getProp "metadata")))

/-- `kinds/dateRange` serialize. -/
def serialize (env : Env) (value : JsVal) : Except JsErr JsVal :=
  if value.isNullish then .ok .null
  else if value.typeName ≠ "object" ∨ value.isArr then
    .error (.typeErr "DateRange must be an object with start/end")
  else normalize env value

/-- `kinds/dateRange` deserialize. -/
def deserialize (env : Env) (value : JsVal) : Except JsErr JsVal :=
  if value.isNullish then .ok .null
  else if value.typeName ≠ "object" ∨ value.isArr then
    .error (.typeErr "Stored date range must be an object")
  else normalize env value

end dateRangeKind

/-! ### Kind registry (`kinds/index.ts`), mutable module state made explicit. -/

/-- The serialize/deserialize pair a kind module exports. -/
structure KindHandler where
  serialize : JsVal → Except JsErr JsVal
  deserialize : JsVal → Except JsErr JsVal

/-- The `kindRegistry` map, passed explicitly. -/
abbrev Registry := List (String × KindHandler)

/-- `registerKind`: duplicate names are rejected unless `replace` is
set; on success the updated registry is returned (on error the caller's
registry is untouched). -/
def registerKind (reg : Registry) (kind : String) (handler : KindHandler)
    (replace : Bool) : Except JsErr Registry :=
  if !replace && alistHas reg kind then
    .error (.genErr ("Kind \"" ++ kind ++ "\" is already registered"))
  else
    .ok (alistSet reg kind handler)

/-- `getRegisteredKind`. -/
def getRegisteredKind (reg : Registry) (kind : String) : Option KindHandler :=
  alistGet reg kind

def stringHandler : KindHandler := ⟨stringKind.serialize, stringKind.deserialize⟩
def markdownHandler : KindHandler := ⟨markdownKind.serialize, markdownKind.deserialize⟩
def numberHandler : KindHandler := ⟨numberKind.serialize, numberKind.deserialize⟩
def numberRangeHandler : KindHandler := ⟨numberRangeKind.serialize, numberRangeKind.deserialize⟩
def booleanHandler : KindHandler := ⟨booleanKind.serialize, booleanKind.deserialize⟩
def dateHandler (env : Env) : KindHandler := ⟨dateKind.serialize env, dateKind.deserialize env⟩
def monthHandler : KindHandler := ⟨monthKind.serialize, monthKind.deserialize⟩
def enumHandler : KindHandler := ⟨enumKind.serialize, enumKind.deserialize⟩
def filesHandler : KindHandler := ⟨filesKind.serialize, filesKind.deserialize⟩
def formulaHandler : KindHandler := ⟨formulaKind.serialize, formulaKind.deserialize⟩
def dateRangeHandler (env : Env) : KindHandler :=
  ⟨dateRangeKind.serialize env, dateRangeKind.deserialize env⟩
def distanceHandler : KindHandler := ⟨distanceKind.serialize, distanceKind.deserialize⟩
def iconHandler : KindHandler := ⟨iconKind.serialize, iconKind.deserialize⟩
def percentageHandler : KindHandler := ⟨percentageKind.serialize, percentageKind.deserialize⟩
def geoAddressHandler : KindHandler := ⟨geoAddressKind.serialize, geoAddressKind.deserialize⟩
def referenceHandler : KindHandler := ⟨referenceKind.serialize, referenceKind.deserialize⟩

/-- The built-in modules in `BUILT_IN_UNIT_TYPE_KINDS` order, each
paired with its `kind` tag (the init loop looks the module up by that
tag). -/
def builtinModules (env : Env) : List (String × KindHandler) :=
  [("string", stringHandler), ("markdown", markdownHandler), ("number", numberHandler),
    ("numberRange", numberRangeHandler), ("boolean", booleanHandler),
    ("date", dateHandler env), ("month", monthHandler), ("enum", enumHandler),
    ("files", filesHandler), ("formula", formulaHandler),
    ("dateRange", dateRangeHandler env), ("distance", distanceHandler),
    ("icon", iconHandler), ("percentage", percentageHandler),
    ("geoAddress", geoAddressHandler), ("reference", referenceHandler)]

/-- The registry as the module-init loop leaves it: every built-in
registered with `replace: true` (which never fails). -/
def builtinRegistry (env : Env) : Registry :=
  (builtinModules env).foldl (fun reg p =>
    match registerKind reg p.1 p.2 true with
    | .ok r => r
    | .error _ => reg) []

/-- `value ?? null`. -/
def nullIfAbsent : JsVal → JsVal
  | .undefined => .null
  | .null => .null
  | v => v

/-- `serializeValue`: resolves the kind's handler and encodes
`value ?? null` through it. -/
def serializeValue (reg : Registry) (kind : String) (value : JsVal) :
    Except JsErr JsVal :=
  match getRegisteredKind reg kind with
  | none => .error (.genErr ("No serializer configured for kind \"" ++ kind ++ "\""))
  | some handler => handler.serialize (nullIfAbsent value)

/-- `deserializeValue`. -/
def deserializeValue (reg : Registry) (kind : String) (value : JsVal) :
    Except JsErr JsVal :=
  match getRegisteredKind reg kind with
  | none => .error (.genErr ("No deserializer configured for kind \"" ++ kind ++ "\""))
  | some handler => handler.deserialize value

/-! ### Schema model and the record codec. -/

/-- A schema data item.  `documentation` and `status` are carried by the
source type but never read by the embedded operations, so they are
omitted; `metadata` is the optional free-form config object
(`.undefined` models an absent one). -/
structure DataItem where
  id : String
  type : String
  metadata : JsVal := .undefined

/-- A unit type definition (fields the record codec reads). -/
structure UnitTypeDefinition where
  id : String
  items : List DataItem

/-- `buildItemsMap`: a `Map` from item id to item (last duplicate id
wins, original insertion position kept — `Map.set` semantics). -/
def buildItemsMap (unitType : UnitTypeDefinition) : List (String × DataItem) :=
  unitType.items.foldl (fun m item => alistSet m item.id item) []

/-- A business or stored value map (a plain JS object). -/
abbrev ValueMap := List (String × JsVal)

/-- One iteration of the `for (const key of Object.keys(values))` loop
of `serializeUnitValues`: resolve the schema item (unknown id is
fatal), encode `values[key]` through its kind, and delete the key on a
nullish encoding or set it otherwise. -/
def serializeStep (reg : Registry) (items : List (String × DataItem))
    (unitTypeId : String) (vs : ValueMap) (base : ValueMap) (key : String) :
    Except JsErr ValueMap :=
  match alistGet items key with
  | none =>
    .error (.genErr
      ("Unknown data item \"" ++ key ++ "\" for unit type \"" ++ unitTypeId ++ "\""))
  | some item => do
    let s ← serializeValue reg item.type (objGet vs key)
    if s.isNullish then .ok (alistRemove base key) else .ok (alistSet base key s)

/-- `serializeUnitValues`: start from a shallow copy of
`context?.existingValues ?? {}`, then run the loop over the own keys of
`values`. -/
def serializeUnitValues (reg : Registry) (unitType : UnitTypeDefinition)
    (values : Option ValueMap) (context : Option ValueMap) :
    Except JsErr ValueMap :=
  let items := buildItemsMap unitType
  let baseValues := context.getD []
  match values with
  | none => .ok baseValues
  | some vs => (vs.map (·.1)).foldlM (serializeStep reg items unitType.id vs) baseValues

/-- One iteration of the `for (const [key, item] of items.entries())`
loop of `deserializeUnitValues`: decode `storedValues[key] ?? null`
(`undefined` when no stored map was given) and set the result key. -/
def deserializeStep (reg : Registry) (storedValues : Option ValueMap)
    (result : ValueMap) (entry : String × DataItem) : Except JsErr ValueMap := do
  let serializedValue :=
    match storedValues with
    | some m => objGet m entry.1
    | none => JsVal.undefined
  let dv ← deserializeValue reg entry.2.type (nullIfAbsent serializedValue)
  .ok (alistSet result entry.1 dv)

/-- `deserializeUnitValues`: walk every schema item (map-entry order),
decoding its stored value, producing a dense map. -/
def deserializeUnitValues (reg : Registry) (unitType : UnitTypeDefinition)
    (storedValues : Option ValueMap) : Except JsErr ValueMap :=
  let items := buildItemsMap unitType
  items.foldlM (deserializeStep reg storedValues) []

/-! ### Unit (de)serialization (`serializer.ts`). -/

/-- `isRecord`: a non-null, non-array `typeof "object"` value. -/
def isRecordVal (v : JsVal) : Bool :=
  v.typeName = "object" && !v.isNull && !v.isArr

/-!  `cloneJson` = `JSON.parse(JSON.stringify(x))` for defined `x`:
drops object fields bound to `undefined`, turns array `undefined`s into
`null`, NaN/±Infinity into `null`, and `Date`s into their ISO
strings. -/

mutual

/-- JSON clone of one value (see the section comment). -/
def jsonCloneVal (env : Env) : JsVal → JsVal
  | .number .nan => .null
  | .number .posInf => .null
  | .number .negInf => .null
  | .dateObj ms => .string (env.isoOf ms)
  | .object fs => .object (jsonCloneFields env fs)
  | .array es => .array (jsonCloneElems env es)
  | v => v

/-- JSON clone of an object's field list (`undefined` fields dropped). -/
def jsonCloneFields (env : Env) : List (String × JsVal) → List (String × JsVal)
  | [] => []
  | (k, v) :: rest =>
    match v with
    | .undefined => jsonCloneFields env rest
    | w => (k, jsonCloneVal env w) :: jsonCloneFields env rest

/-- JSON clone of an array's elements (`undefined` becomes `null`). -/
def jsonCloneElems (env : Env) : List JsVal → List JsVal
  | [] => []
  | v :: rest =>
    (match v with
      | .undefined => JsVal.null
      | w => jsonCloneVal env w) :: jsonCloneElems env rest

end

/-- `cloneJson` itself (identity on `undefined`). -/
def cloneJson (env : Env) (v : JsVal) : JsVal :=
  match v with
  | .undefined => .undefined
  | w => jsonCloneVal env w

/-- `coerceDate`: absent stays absent, a string must parse to a valid
date, anything else is fatal. -/
def coerceDate (env : Env) (value : JsVal) (context : String) :
    Except JsErr (Option ℤ) :=
  if value.isNullish then .ok none
  else
    match value with
    | .string s =>
      match env.parseDate s with
      | none => .error (.genErr (context ++ " must be a valid ISO date string"))
      | some ms => .ok (some ms)
    | _ => .error (.genErr (context ++ " must be an ISO string when provided"))

/-- The `required` flag read through `item.metadata?.required`. -/
def DataItem.requiredFlag (item : DataItem) : Bool :=
  (item.metadata.getProp "required").truthy

/-- First key of `keys` not declared by the schema, in iteration order. -/
def firstUnknownKey (itemIds : List String) : List String → Option String
  | [] => none
  | k :: rest => if itemIds.contains k then firstUnknownKey itemIds rest else some k

/-- The required-field loop of `validateUnitValues`, over schema items
in declaration order. -/
def requiredCheck (values result : ValueMap) : List DataItem → Except JsErr Unit
  | [] => .ok ()
  | item :: rest =>
    let rawValue := objGet values item.id
    if item.requiredFlag && rawValue.isNullish then
      .error (.genErr ("Missing required value for data item \"" ++ item.id ++ "\""))
    else
      let deserialized := objGet result item.id
      if item.requiredFlag && deserialized.isNullish then
        .error (.genErr
          ("Required value \"" ++ item.id ++ "\" resolved to null or undefined"))
      else requiredCheck values result rest

/-- `validateUnitValues`: reject unknown keys, decode the full map, then
enforce required items. -/
def validateUnitValues (reg : Registry) (unitType : UnitTypeDefinition)
    (values : ValueMap) : Except JsErr ValueMap :=
  let itemIds := unitType.items.map (·.id)
  match firstUnknownKey itemIds (values.map (·.1)) with
  | some key =>
    .error (.genErr ("Unknown value \"" ++ key ++ "\" for unit type \"" ++ unitType.id ++ "\""))
  | none => do
    let result ← deserializeUnitValues reg unitType (some values)
    let _ ← requiredCheck values result unitType.items
    .ok result

/-- `validateUnitMetadata`: absent passes through; otherwise it must be
a record, its `itemStatuses` keys must be declared items, and the result
is a JSON clone. -/
def validateUnitMetadata (env : Env) (unitType : UnitTypeDefinition)
    (metadata : JsVal) : Except JsErr JsVal :=
  match metadata with
  | .undefined => .ok .undefined
  | m =>
    if !isRecordVal m then .error (.genErr "Unit metadata must be an object")
    else
      let statuses := m.getProp "itemStatuses"
      let itemIds := unitType.items.map (·.id)
      let unknown :=
        if statuses.truthy && isRecordVal statuses then
          match statuses with
          | .object fs => firstUnknownKey itemIds (fs.map (·.1))
          | _ => none
        else none
      match unknown with
      | some key =>
        .error (.genErr ("Metadata references unknown data item \"" ++ key ++ "\""))
      | none => .ok (cloneJson env m)

/-- The deserialized record (source interface `Unit`); timestamps are
`Date`s carried as epoch milliseconds. -/
structure UnitRecord where
  id : String
  unitTypeId : String
  values : ValueMap
  metadata : JsVal
  createdAt : ℤ
  updatedAt : ℤ

/-- `deserializeUnit`: validates the payload envelope, its value map and
metadata, then coerces timestamps — `createdAt` defaults to now,
`updatedAt` to `createdAt`. -/
def deserializeUnit (env : Env) (reg : Registry) (payload : JsVal)
    (unitType : UnitTypeDefinition) : Except JsErr UnitRecord :=
  if !isRecordVal payload then .error (.genErr "Unit payload must be an object")
  else
    match payload.getProp "id" with
    | .string uid =>
      if uid = "" then .error (.genErr "Unit id must be a non-empty string")
      else
        match payload.getProp "unitTypeId" with
        | .string utid =>
          if utid = "" then .error (.genErr "Unit unitTypeId must be a non-empty string")
          else if utid ≠ unitType.id then
            .error (.genErr ("Unit " ++ uid ++ " references mismatched unit type \"" ++
              utid ++ "\", expected \"" ++ unitType.id ++ "\""))
          else
            let rawValues := payload.getProp "values"
            if !isRecordVal rawValues then
              .error (.genErr "Unit values must be an object")
            else
              -- a Date passes the record guard but has no own enumerable keys
              let fs := match rawValues with | .object fields => fields | _ => []
              .ok () >>= fun _ => do
                let values ← validateUnitValues reg unitType fs
                let metadata ← validateUnitMetadata env unitType (payload.getProp "metadata")
                let createdAtOpt ← coerceDate env (payload.getProp "createdAt") "createdAt"
                let createdAt := createdAtOpt.getD env.nowMs
                let updatedAtOpt ← coerceDate env (payload.getProp "updatedAt") "updatedAt"
                let updatedAt := updatedAtOpt.getD createdAt
                .ok ⟨uid, unitType.id, values, metadata, createdAt, updatedAt⟩
        | _ => .error (.genErr "Unit unitTypeId must be a non-empty string")
    | _ => .error (.genErr "Unit id must be a non-empty string")

/-! ### Heap-level model of `serializeUnitValues` for the aliasing claim.

The pure embedding above cannot distinguish "mutates a private copy"
from "mutates the caller's object", so the frame property is settled on
a heap model: object references are indices into a heap of
own-property lists, `{...existing}` allocates a fresh reference, and
the loop's `delete`/assignment statements write through the private
reference only. -/

/-- A heap of JS objects; a reference is an index. -/
abbrev Heap := List ValueMap

/-- Dereference (out-of-range reads as an empty object). -/
def heapRead (h : Heap) (r : Nat) : ValueMap := h.getD r []

/-- In-place update of one object. -/
def heapWrite (h : Heap) (r : Nat) (o : ValueMap) : Heap := h.set r o

/-- One iteration of the `for (const key of Object.keys(values))` loop,
acting on the heap through the private reference `bref`. -/
def serializeAliasStep (reg : Registry) (items : List (String × DataItem))
    (unitTypeId : String) (vs : ValueMap) (bref : Nat)
    (acc : Heap × Except JsErr Unit) (key : String) : Heap × Except JsErr Unit :=
  match acc with
  | (h, .error e) => (h, .error e)
  | (h, .ok _) =>
    match alistGet items key with
    | none =>
      (h, .error (.genErr
        ("Unknown data item \"" ++ key ++ "\" for unit type \"" ++ unitTypeId ++ "\"")))
    | some item =>
      match serializeValue reg item.type (objGet vs key) with
      | .error e => (h, .error e)
      | .ok s =>
        if s.isNullish then
          (heapWrite h bref (alistRemove (heapRead h bref) key), .ok ())
        else
          (heapWrite h bref (alistSet (heapRead h bref) key s), .ok ())

/-- `serializeUnitValues` on the heap model: `{...(context?.existingValues
?? {})}` allocates the private copy, the loop mutates it, and the result
is a reference (to a second fresh copy on the `!values` early return,
matching `return { ...baseValues }`). -/
def serializeUnitValuesAlias (reg : Registry) (unitType : UnitTypeDefinition)
    (values : Option ValueMap) (heap : Heap) (existingRef : Option Nat) :
    Heap × Except JsErr Nat :=
  let items := buildItemsMap unitType
  let source := match existingRef with | some r => heapRead heap r | none => []
  let bref := heap.length
  let heap1 := heap ++ [source]
  match values with
  | none => (heap1 ++ [heapRead heap1 bref], .ok heap1.length)
  | some vs =>
    match (vs.map (·.1)).foldl
        (serializeAliasStep reg items unitType.id vs bref) (heap1, .ok ()) with
    | (h, .error e) => (h, .error e)
    | (h, .ok _) => (h, .ok bref)

/-! ### Concrete fixtures used by witnesses and counterexamples. -/

/-- A concrete platform environment for witness instantiations. -/
def fixedEnv : Env :=
  { parseDate := fun s => if s = "2020-01-02T03:04:05.000Z" then some 1577934245000 else none,
    isoOf := fun ms => "iso-" ++ toString ms,
    nowMs := 1700000000000 }

/-- Schema with a single percentage item. -/
def progressSchema : UnitTypeDefinition := ⟨"task", [⟨"progress", "percentage", .undefined⟩]⟩

/-- Schema with `name`/`age` items (spec scenario). -/
def personSchema : UnitTypeDefinition :=
  ⟨"person", [⟨"name", "string", .undefined⟩, ⟨"age", "number", .undefined⟩]⟩

/-- Schema whose single `name` item is flagged required. -/
def namedSchema : UnitTypeDefinition :=
  ⟨"named", [⟨"name", "string", .object [("required", .boolean true)]⟩]⟩

/-- Schema with two required items, `a` declared before `name`. -/
def twoRequiredSchema : UnitTypeDefinition :=
  ⟨"pair", [⟨"a", "string", .object [("required", .boolean true)]⟩,
    ⟨"name", "string", .object [("required", .boolean true)]⟩]⟩

/-- Schema with a single number item `a`. -/
def mixedSchema : UnitTypeDefinition := ⟨"mixed", [⟨"a", "number", .undefined⟩]⟩

/-- Schema with a single enum item `status`. -/
def enumSchema : UnitTypeDefinition := ⟨"board", [⟨"status", "enum", .undefined⟩]⟩

/-- Spec-scenario payload: `name`/`age` values plus an unknown `extra`. -/
def extraPayload : JsVal :=
  .object [("id", .string "u1"), ("unitTypeId", .string "person"),
    ("values", .object [("name", .string "A"), ("age", .number (.fin 1)),
      ("extra", .string "x")])]

/-- Payload with an empty values object against `twoRequiredSchema`. -/
def pairPayload : JsVal :=
  .object [("id", .string "u1"), ("unitTypeId", .string "pair"), ("values", .object [])]

/-- Payload with an empty values object against `namedSchema`. -/
def namedPayload : JsVal :=
  .object [("id", .string "u1"), ("unitTypeId", .string "named"), ("values", .object [])]

/-- Payload carrying a createdAt string but no updatedAt. -/
def tsPayload : JsVal :=
  .object [("id", .string "u1"), ("unitTypeId", .string "person"),
    ("values", .object [("name", .string "A")]),
    ("createdAt", .string "2020-01-02T03:04:05.000Z")]

/-- Payload with no timestamps at all. -/
def ntPayload : JsVal :=
  .object [("id", .string "u1"), ("unitTypeId", .string "person"),
    ("values", .object [("name", .string "A")])]

/-- Payload whose createdAt is present but unparsable. -/
def badTsPayload : JsVal :=
  .object [("id", .string "u1"), ("unitTypeId", .string "person"),
    ("values", .object [("name", .string "A")]), ("createdAt", .string "nope")]

/-- Payload whose updatedAt is present but unparsable. -/
def badUpdPayload : JsVal :=
  .object [("id", .string "u1"), ("unitTypeId", .string "person"),
    ("values", .object [("name", .string "A")]), ("updatedAt", .string "nope")]

/-- The record `tsPayload` deserializes to under `fixedEnv`. -/
def tsRecord : UnitRecord :=
  ⟨"u1", "person", [("name", .string "A"), ("age", .null)], .undefined,
    1577934245000, 1577934245000⟩

/-- The record `ntPayload` deserializes to under `fixedEnv`. -/
def ntRecord : UnitRecord :=
  ⟨"u1", "person", [("name", .string "A"), ("age", .null)], .undefined,
    1700000000000, 1700000000000⟩

/-! ## Association-list facts used throughout. -/

theorem alistGet_set_self {α : Type} (l : List (String × α)) (k : String) (v : α) :
    alistGet (alistSet l k v) k = some v := by
  induction l with
  | nil => simp [alistSet, alistGet]
  | cons e rest ih =>
    by_cases he : e.1 = k
    · simp [alistSet, he, alistGet]
    · simp [alistSet, he, alistGet, ih]

theorem alistGet_set_ne {α : Type} (l : List (String × α)) (k k' : String) (v : α)
    (h : k' ≠ k) : alistGet (alistSet l k v) k' = alistGet l k' := by
  induction l with
  | nil => simp [alistSet, alistGet, Ne.symm h]
  | cons e rest ih =>
    by_cases he : e.1 = k
    · subst he
      simp [alistSet, alistGet, Ne.symm h]
    · simp [alistSet, he, alistGet, ih]

theorem alistGet_remove_self {α : Type} (l : List (String × α)) (k : String) :
    alistGet (alistRemove l k) k = none := by
  induction l with
  | nil => simp [alistRemove, alistGet]
  | cons e rest ih =>
    by_cases he : e.1 = k
    · simp [alistRemove, he, ih]
    · simp [alistRemove, he, alistGet, ih]

theorem alistGet_remove_ne {α : Type} (l : List (String × α)) (k k' : String)
    (h : k' ≠ k) : alistGet (alistRemove l k) k' = alistGet l k' := by
  induction l with
  | nil => simp [alistRemove]
  | cons e rest ih =>
    by_cases he : e.1 = k
    · subst he
      simp [alistRemove, alistGet, Ne.symm h, ih]
    · simp [alistRemove, he, alistGet, ih]

theorem alistGet_eq_none {α : Type} (l : List (String × α)) (k : String)
    (h : k ∉ l.map (·.1)) : alistGet l k = none := by
  induction l with
  | nil => rfl
  | cons e rest ih =>
    simp only [List.map_cons, List.mem_cons] at h
    push_neg at h
    simp [alistGet, Ne.symm h.1, ih h.2]

theorem alistGet_mem_keys {α : Type} (l : List (String × α)) (k : String) (v : α)
    (h : alistGet l k = some v) : k ∈ l.map (·.1) := by
  induction l with
  | nil => simp [alistGet] at h
  | cons e rest ih =>
    by_cases he : e.1 = k
    · simp [he]
    · simp only [alistGet, he, if_false] at h
      simp [ih h]

/-! ## C4 — registry duplicate guard. -/

/-- C4: registering an already-present kind name without `replace`
fails with the duplicate-kind error (in the explicit-state embedding no
updated registry is produced, so the caller's registry is unchanged);
with `replace := true` registration always succeeds and a subsequent
`getRegisteredKind` on that name returns the new handler. -/
theorem registerKind_duplicate_guard :
    (∀ (reg : Registry) (kind : String) (handler : KindHandler),
      alistHas reg kind = true →
      registerKind reg kind handler false =
        .error (.genErr ("Kind \"" ++ kind ++ "\" is already registered"))) ∧
    (∀ (reg : Registry) (kind : String) (handler : KindHandler),
      ∃ reg', registerKind reg kind handler true = .ok reg' ∧
        getRegisteredKind reg' kind = some handler) := by
  constructor
  · intro reg kind handler h
    simp [registerKind, h]
  · intro reg kind handler
    exact ⟨alistSet reg kind handler, by simp [registerKind],
      by simp [getRegisteredKind, alistGet_set_self]⟩

/-- C4 witness: duplicate registration of `"string"` on a one-entry
registry fails; replacement then succeeds and resolves to the new
handler. -/
theorem registerKind_duplicate_guard_witness :
    registerKind [("string", stringHandler)] "string" numberHandler false =
      .error (.genErr ("Kind \"" ++ "string" ++ "\" is already registered")) ∧
    ∃ reg', registerKind [("string", stringHandler)] "string" numberHandler true =
        .ok reg' ∧ getRegisteredKind reg' "string" = some numberHandler :=
  ⟨registerKind_duplicate_guard.1 [("string", stringHandler)] "string" numberHandler rfl,
    registerKind_duplicate_guard.2 [("string", stringHandler)] "string" numberHandler⟩

/-! ## C5 — percentage codec scenario and range check. -/

/-- C5: the percentage codec encodes `{value: 42.5}` and the bare
number `42.5` to the stored integer `4250`, decodes stored `4250` to
`{value: 42.5}`, and its encode raises a RangeError whenever the
coerced numeric value is strictly below 0 or strictly above 100. -/
theorem percentage_encode_decode_range :
    percentageKind.serialize (.object [("value", .number (.fin (85/2)))]) =
      .ok (.number (.fin 4250)) ∧
    percentageKind.serialize (.number (.fin (85/2))) = .ok (.number (.fin 4250)) ∧
    percentageKind.deserialize (.number (.fin 4250)) =
      .ok (.object [("value", .number (.fin (85/2)))]) ∧
    ∀ (v : JsVal) (n : JsNum),
      percentageKind.coercePercentageValue v = .ok (some n) →
      (n.lt (.fin 0) || n.gt (.fin 100)) = true →
      ∃ msg, percentageKind.serialize v = .error (.rangeErr msg) := by
  have hfloor : (⌊(85/2 * 100 + 2⁻¹ : ℚ)⌋ : ℤ) = 4250 := by
    rw [Int.floor_eq_iff]
    norm_num
  refine ⟨?_, ?_, ?_, ?_⟩
  · simp [percentageKind.serialize, percentageKind.coercePercentageValue, JsVal.isNullish,
      JsVal.typeName, JsVal.hasProp, alistHas, alistGet, JsVal.getProp, objGet,
      Bind.bind, Except.bind, JsNum.lt, JsNum.gt, JsNum.mulConst, JsNum.round,
      percentageKind.BASIS_POINTS, hfloor]
    norm_num [hfloor]
  · simp [percentageKind.serialize, percentageKind.coercePercentageValue, JsVal.isNullish,
      Bind.bind, Except.bind, JsNum.lt, JsNum.gt, JsNum.mulConst, JsNum.round,
      percentageKind.BASIS_POINTS, hfloor]
    norm_num [hfloor]
  · simp [percentageKind.deserialize, JsVal.isNullish, JsNum.divConst,
      percentageKind.BASIS_POINTS]
    norm_num
  · intro v n hc hrange
    refine ⟨"Percentage value must be between 0 and 100, received " ++ n.toDisplay, ?_⟩
    simp only [percentageKind.serialize, hc, Bind.bind, Except.bind]
    rw [if_pos hrange]

/-- C5 witness: encoding the bare number 101 (coerced value above 100)
raises the RangeError. -/
theorem percentage_encode_decode_range_witness :
    ∃ msg, percentageKind.serialize (.number (.fin 101)) = .error (.rangeErr msg) :=
  percentage_encode_decode_range.2.2.2 (.number (.fin 101)) (.fin 101) rfl rfl

/-! ## C10 — percentage decode has no range check. -/

/-- C10: percentage deserialize does no range check — every finite
stored number `n` decodes to `{value: n / 100}` — and it throws exactly
when the stored value is neither nullish nor a number. -/
theorem percentage_decode_no_range_check :
    (∀ q : ℚ, percentageKind.deserialize (.number (.fin q)) =
      .ok (.object [("value", .number (.fin (q / 100)))])) ∧
    (∀ v : JsVal, (∃ e, percentageKind.deserialize v = .error e) →
      v.isNullish = false ∧ v.isNumber = false) ∧
    (∀ v : JsVal, v.isNullish = false → v.isNumber = false →
      ∃ e, percentageKind.deserialize v = .error e) := by
  refine ⟨fun q => rfl, ?_, ?_⟩
  · intro v hv
    obtain ⟨e, he⟩ := hv
    cases v <;>
      simp_all [percentageKind.deserialize, JsVal.isNullish, JsVal.isNumber]
  · intro v h1 h2
    cases v <;>
      simp_all [percentageKind.deserialize, JsVal.isNullish, JsVal.isNumber]

/-- C10 witness: a stored string raises, and 20000 basis points (above
the encodable range) still decodes to `{value: 200}`. -/
theorem percentage_decode_no_range_check_witness :
    (∃ e, percentageKind.deserialize (.string "x") = .error e) ∧
    percentageKind.deserialize (.number (.fin 20000)) =
      .ok (.object [("value", .number (.fin (20000 / 100)))]) :=
  ⟨percentage_decode_no_range_check.2.2 (.string "x") rfl rfl,
    percentage_decode_no_range_check.1 20000⟩

/-! ## C7 — numberRange bound validation. -/

/-- C7: numberRange encode raises a TypeError when either bound of a
non-null object-typed input is not a finite number, raises the
RangeError when both bounds are finite with start > end, and every
accepted non-null result has finite `start ≤ end`. -/
theorem numberRange_encode_bounds :
    (∀ v : JsVal, v.isNullish = false → v.typeName = "object" → v.isArr = false →
      ((v.getProp "start").isFiniteNumber = false ∨
        (v.getProp "end").isFiniteNumber = false) →
      ∃ msg, numberRangeKind.serialize v = .error (.typeErr msg)) ∧
    (∀ (v : JsVal) (a b : ℚ), v.getProp "start" = .number (.fin a) →
      v.getProp "end" = .number (.fin b) → b < a →
      numberRangeKind.serialize v =
        .error (.rangeErr "numberRange.start must be <= numberRange.end")) ∧
    (∀ v w, numberRangeKind.serialize v = .ok w → w ≠ .null →
      ∃ a b : ℚ, w.getProp "start" = .number (.fin a) ∧
        w.getProp "end" = .number (.fin b) ∧ a ≤ b) := by
  refine ⟨?_, ?_, ?_⟩
  · intro v hnull hobj harr hbad
    simp only [numberRangeKind.serialize, hnull, hobj, harr, Bool.false_eq_true, if_false,
      ne_eq, not_true_eq_false, or_self, numberRangeKind.sanitize]
    rcases hbad with hs | he
    · cases hstart : v.getProp "start" with
      | number n =>
        cases n with
        | fin q => rw [hstart] at hs; simp [JsVal.isFiniteNumber] at hs
        | nan => exact ⟨_, rfl⟩
        | posInf => exact ⟨_, rfl⟩
        | negInf => exact ⟨_, rfl⟩
      | null => exact ⟨_, rfl⟩
      | undefined => exact ⟨_, rfl⟩
      | boolean b => exact ⟨_, rfl⟩
      | string s => exact ⟨_, rfl⟩
      | object fs => exact ⟨_, rfl⟩
      | array es => exact ⟨_, rfl⟩
      | dateObj ms => exact ⟨_, rfl⟩
    · cases hstart : v.getProp "start" with
      | number n =>
        cases n with
        | fin q =>
          cases hend : v.getProp "end" with
          | number m =>
            cases m with
            | fin q2 => rw [hend] at he; simp [JsVal.isFiniteNumber] at he
            | nan => exact ⟨_, rfl⟩
            | posInf => exact ⟨_, rfl⟩
            | negInf => exact ⟨_, rfl⟩
          | null => exact ⟨_, rfl⟩
          | undefined => exact ⟨_, rfl⟩
          | boolean b => exact ⟨_, rfl⟩
          | string s => exact ⟨_, rfl⟩
          | object fs => exact ⟨_, rfl⟩
          | array es => exact ⟨_, rfl⟩
          | dateObj ms => exact ⟨_, rfl⟩
        | nan => exact ⟨_, rfl⟩
        | posInf => exact ⟨_, rfl⟩
        | negInf => exact ⟨_, rfl⟩
      | null => exact ⟨_, rfl⟩
      | undefined => exact ⟨_, rfl⟩
      | boolean b => exact ⟨_, rfl⟩
      | string s => exact ⟨_, rfl⟩
      | object fs => exact ⟨_, rfl⟩
      | array es => exact ⟨_, rfl⟩
      | dateObj ms => exact ⟨_, rfl⟩
  · intro v a b hs he hba
    have hvobj : v.typeName = "object" ∧ v.isArr = false ∧ v.isNullish = false := by
      cases v <;> simp_all [JsVal.getProp, JsVal.typeName, JsVal.isArr, JsVal.isNullish]
    simp only [numberRangeKind.serialize, hvobj.1, hvobj.2.1, hvobj.2.2, Bool.false_eq_true,
      if_false, ne_eq, not_true_eq_false, or_self, numberRangeKind.sanitize, hs, he,
      numberRangeKind.ensureNumber, Bind.bind, Except.bind]
    rw [if_pos hba]
  · intro v w hok hnn
    cases v with
    | null => simp [numberRangeKind.serialize, JsVal.isNullish] at hok; exact absurd hok.symm hnn
    | undefined => simp [numberRangeKind.serialize, JsVal.isNullish] at hok; exact absurd hok.symm hnn
    | boolean b2 => simp [numberRangeKind.serialize, JsVal.isNullish, JsVal.typeName] at hok
    | number n2 => simp [numberRangeKind.serialize, JsVal.isNullish, JsVal.typeName] at hok
    | string s2 => simp [numberRangeKind.serialize, JsVal.isNullish, JsVal.typeName] at hok
    | array es2 => simp [numberRangeKind.serialize, JsVal.isNullish, JsVal.typeName, JsVal.isArr] at hok
    | dateObj ms2 =>
      simp [numberRangeKind.serialize, JsVal.isNullish, JsVal.typeName, JsVal.isArr,
        numberRangeKind.sanitize, JsVal.getProp, numberRangeKind.ensureNumber,
        Bind.bind, Except.bind] at hok
    | object fs =>
      simp only [numberRangeKind.serialize, JsVal.isNullish, JsVal.typeName, JsVal.isArr,
        Bool.false_eq_true, if_false, ne_eq, not_true_eq_false, or_self,
        numberRangeKind.sanitize] at hok
      cases hstart : (JsVal.object fs).getProp "start" with
      | number n =>
        cases n with
        | fin a =>
          rw [hstart] at hok
          cases hend : (JsVal.object fs).getProp "end" with
          | number m =>
            cases m with
            | fin b =>
              rw [hend] at hok
              simp only [numberRangeKind.ensureNumber, Bind.bind, Except.bind] at hok
              by_cases hord : a > b
              · rw [if_pos hord] at hok
                exact Except.noConfusion hok
              · rw [if_neg hord] at hok
                refine ⟨a, b, ?_⟩
                split at hok <;>
                  (injection hok with hw; subst hw; exact ⟨rfl, rfl, not_lt.mp hord⟩)
            | nan => rw [hend] at hok; simp only [numberRangeKind.ensureNumber, Bind.bind, Except.bind] at hok; exact Except.noConfusion hok
            | posInf => rw [hend] at hok; simp only [numberRangeKind.ensureNumber, Bind.bind, Except.bind] at hok; exact Except.noConfusion hok
            | negInf => rw [hend] at hok; simp only [numberRangeKind.ensureNumber, Bind.bind, Except.bind] at hok; exact Except.noConfusion hok
          | null => rw [hend] at hok; simp only [numberRangeKind.ensureNumber, Bind.bind, Except.bind] at hok; exact Except.noConfusion hok
          | undefined => rw [hend] at hok; simp only [numberRangeKind.ensureNumber, Bind.bind, Except.bind] at hok; exact Except.noConfusion hok
          | boolean b2 => rw [hend] at hok; simp only [numberRangeKind.ensureNumber, Bind.bind, Except.bind] at hok; exact Except.noConfusion hok
          | string s2 => rw [hend] at hok; simp only [numberRangeKind.ensureNumber, Bind.bind, Except.bind] at hok; exact Except.noConfusion hok
          | object fs2 => rw [hend] at hok; simp only [numberRangeKind.ensureNumber, Bind.bind, Except.bind] at hok; exact Except.noConfusion hok
          | array es2 => rw [hend] at hok; simp only [numberRangeKind.ensureNumber, Bind.bind, Except.bind] at hok; exact Except.noConfusion hok
          | dateObj ms2 => rw [hend] at hok; simp only [numberRangeKind.ensureNumber, Bind.bind, Except.bind] at hok; exact Except.noConfusion hok
        | nan => rw [hstart] at hok; simp only [numberRangeKind.ensureNumber, Bind.bind, Except.bind] at hok; exact Except.noConfusion hok
        | posInf => rw [hstart] at hok; simp only [numberRangeKind.ensureNumber, Bind.bind, Except.bind] at hok; exact Except.noConfusion hok
        | negInf => rw [hstart] at hok; simp only [numberRangeKind.ensureNumber, Bind.bind, Except.bind] at hok; exact Except.noConfusion hok
      | null => rw [hstart] at hok; simp only [numberRangeKind.ensureNumber, Bind.bind, Except.bind] at hok; exact Except.noConfusion hok
      | undefined => rw [hstart] at hok; simp only [numberRangeKind.ensureNumber, Bind.bind, Except.bind] at hok; exact Except.noConfusion hok
      | boolean b2 => rw [hstart] at hok; simp only [numberRangeKind.ensureNumber, Bind.bind, Except.bind] at hok; exact Except.noConfusion hok
      | string s2 => rw [hstart] at hok; simp only [numberRangeKind.ensureNumber, Bind.bind, Except.bind] at hok; exact Except.noConfusion hok
      | object fs2 => rw [hstart] at hok; simp only [numberRangeKind.ensureNumber, Bind.bind, Except.bind] at hok; exact Except.noConfusion hok
      | array es2 => rw [hstart] at hok; simp only [numberRangeKind.ensureNumber, Bind.bind, Except.bind] at hok; exact Except.noConfusion hok
      | dateObj ms2 => rw [hstart] at hok; simp only [numberRangeKind.ensureNumber, Bind.bind, Except.bind] at hok; exact Except.noConfusion hok

/-- C7 witness: `{start: 10, end: 5}` raises the RangeError, a missing
`end` raises a TypeError, and `{start: 1, end: 5}` is accepted with
ordered bounds. -/
theorem numberRange_encode_bounds_witness :
    numberRangeKind.serialize
        (.object [("start", .number (.fin 10)), ("end", .number (.fin 5))]) =
      .error (.rangeErr "numberRange.start must be <= numberRange.end") ∧
    (∃ msg, numberRangeKind.serialize (.object [("start", .number (.fin 1))]) =
      .error (.typeErr msg)) ∧
    ∃ a b : ℚ,
      (JsVal.object [("start", JsVal.number (.fin 1)), ("end", JsVal.number (.fin 5))]).getProp
          "start" = .number (.fin a) ∧
      (JsVal.object [("start", JsVal.number (.fin 1)), ("end", JsVal.number (.fin 5))]).getProp
          "end" = .number (.fin b) ∧ a ≤ b :=
  ⟨numberRange_encode_bounds.2.1
      (.object [("start", .number (.fin 10)), ("end", .number (.fin 5))]) 10 5 rfl rfl
      (by norm_num),
    numberRange_encode_bounds.1 (.object [("start", .number (.fin 1))]) rfl rfl rfl
      (Or.inr rfl),
    numberRange_encode_bounds.2.2
      (.object [("start", .number (.fin 1)), ("end", .number (.fin 5))])
      (.object [("start", .number (.fin 1)), ("end", .number (.fin 5))])
      (by simp [numberRangeKind.serialize, JsVal.isNullish, JsVal.typeName, JsVal.isArr,
        numberRangeKind.sanitize, JsVal.getProp, objGet, alistGet,
        numberRangeKind.ensureNumber, Bind.bind, Except.bind, JsVal.truthy])
      (by simp)⟩

/-! ## Behaviour of the `serializeUnitValues` loop. -/

theorem serializeStep_ok_inv (reg : Registry) (items : List (String × DataItem))
    (tid : String) (vs base base' : ValueMap) (key : String)
    (h : serializeStep reg items tid vs base key = .ok base') :
    ∃ item s, alistGet items key = some item ∧
      serializeValue reg item.type (objGet vs key) = .ok s ∧
      base' = if s.isNullish then alistRemove base key else alistSet base key s := by
  rw [serializeStep] at h
  split at h
  · exact Except.noConfusion h
  case _ item hit =>
    cases hs : serializeValue reg item.type (objGet vs key) with
    | error e =>
      rw [hs] at h
      simp only [Bind.bind, Except.bind] at h
      exact Except.noConfusion h
    | ok s =>
      rw [hs] at h
      simp only [Bind.bind, Except.bind] at h
      refine ⟨item, s, hit, hs, ?_⟩
      by_cases hnul : s.isNullish
      · rw [if_pos hnul] at h ⊢
        exact (Except.ok.inj h).symm
      · rw [if_neg hnul] at h ⊢
        exact (Except.ok.inj h).symm

/-- Keys the loop never visits keep their baseline binding. -/
theorem serializeFold_frame (reg : Registry) (items : List (String × DataItem))
    (tid : String) (vs : ValueMap) :
    ∀ (ks : List String) (base stored : ValueMap),
      ks.foldlM (serializeStep reg items tid vs) base = .ok stored →
      ∀ k, ¬ k ∈ ks → alistGet stored k = alistGet base k := by
  intro ks
  induction ks with
  | nil =>
    intro base stored h k _
    simp only [List.foldlM_nil] at h
    cases h
    rfl
  | cons k0 rest ih =>
    intro base stored h k hk
    rw [List.foldlM_cons] at h
    cases hstep : serializeStep reg items tid vs base k0 with
    | error e =>
      rw [hstep] at h
      simp only [Bind.bind, Except.bind] at h
      exact Except.noConfusion h
    | ok base' =>
      rw [hstep] at h
      simp only [Bind.bind, Except.bind] at h
      have hne : k ≠ k0 := fun hh => hk (hh ▸ List.mem_cons_self k0 rest)
      have hnr : ¬ k ∈ rest := fun hh => hk (List.mem_cons_of_mem _ hh)
      obtain ⟨item, s, _, _, hbase'⟩ :=
        serializeStep_ok_inv reg items tid vs base base' k0 hstep
      rw [ih base' stored h k hnr, hbase']
      by_cases hnul : s.isNullish
      · rw [if_pos hnul]
        exact alistGet_remove_ne _ _ _ hne
      · rw [if_neg hnul]
        exact alistGet_set_ne _ _ _ _ hne

/-- A successful run determines, for every visited key, the schema item
it resolved, the encoded value, and the key's final binding. -/
theorem serializeFold_get (reg : Registry) (items : List (String × DataItem))
    (tid : String) (vs : ValueMap) :
    ∀ (ks : List String) (base stored : ValueMap),
      ks.foldlM (serializeStep reg items tid vs) base = .ok stored →
      ∀ k, k ∈ ks →
      ∃ item s, alistGet items k = some item ∧
        serializeValue reg item.type (objGet vs k) = .ok s ∧
        alistGet stored k = if s.isNullish then none else some s := by
  intro ks
  induction ks with
  | nil =>
    intro _ _ _ k hk
    cases hk
  | cons k0 rest ih =>
    intro base stored h k hk
    rw [List.foldlM_cons] at h
    cases hstep : serializeStep reg items tid vs base k0 with
    | error e =>
      rw [hstep] at h
      simp only [Bind.bind, Except.bind] at h
      exact Except.noConfusion h
    | ok base' =>
      rw [hstep] at h
      simp only [Bind.bind, Except.bind] at h
      by_cases hkr : k ∈ rest
      · exact ih base' stored h k hkr
      · have hk0 : k = k0 := by
          rcases List.mem_cons.mp hk with he | hm
          · exact he
          · exact absurd hm hkr
        subst hk0
        obtain ⟨item, s, hit, hs, hbase'⟩ :=
          serializeStep_ok_inv reg items tid vs base base' k hstep
        refine ⟨item, s, hit, hs, ?_⟩
        rw [serializeFold_frame reg items tid vs rest base' stored h k hkr, hbase']
        by_cases hnul : s.isNullish
        · rw [if_pos hnul, if_pos hnul]
          exact alistGet_remove_self _ _
        · rw [if_neg hnul, if_neg hnul]
          exact alistGet_set_self _ _ _

/-- The first undeclared key the unknown-value loop reaches. -/
theorem firstUnknownKey_exists (itemIds : List String) :
    ∀ (ks : List String) (k : String), k ∈ ks → ¬ k ∈ itemIds →
    ∃ k', firstUnknownKey itemIds ks = some k' ∧ k' ∈ ks ∧ ¬ k' ∈ itemIds := by
  intro ks
  induction ks with
  | nil => intro k hk; cases hk
  | cons k0 rest ih =>
    intro k hk hnk
    by_cases h0 : itemIds.contains k0
    · have hk0mem : k0 ∈ itemIds := by
        simpa [List.contains] using (List.elem_iff.mp h0)
      have hkr : k ∈ rest := by
        rcases List.mem_cons.mp hk with he | hm
        · subst he; exact absurd hk0mem hnk
        · exact hm
      obtain ⟨k', h1, h2, h3⟩ := ih k hkr hnk
      exact ⟨k', by simp [firstUnknownKey, h0, h1, hk0mem], List.mem_cons_of_mem _ h2, h3⟩
    · have hk0not : ¬ k0 ∈ itemIds := fun hm =>
        h0 (by simpa [List.contains] using List.elem_iff.mpr hm)
      exact ⟨k0, by simp [firstUnknownKey, h0, hk0not], List.mem_cons_self k0 rest, hk0not⟩

/-! ## C2 — null removal and baseline carry-over. -/

/-- C2: when a sparse entry's value encodes to nullish, the result drops
that key even if the baseline bound it; baseline keys the sparse map
never mentions keep their baseline binding. -/
theorem serializeUnitValues_null_removal (reg : Registry) (ut : UnitTypeDefinition)
    (vs baseline stored : ValueMap)
    (hok : serializeUnitValues reg ut (some vs) (some baseline) = .ok stored) :
    (∀ (k : String) (v : JsVal) (item : DataItem) (s : JsVal),
      alistGet vs k = some v →
      alistGet (buildItemsMap ut) k = some item →
      serializeValue reg item.type v = .ok s → s.isNullish = true →
      alistHas baseline k = true →
      alistGet stored k = none) ∧
    (∀ k : String, alistHas baseline k = true → ¬ k ∈ vs.map (·.1) →
      alistGet stored k = alistGet baseline k) := by
  have hfold : (vs.map (·.1)).foldlM
      (serializeStep reg (buildItemsMap ut) ut.id vs) baseline = .ok stored := hok
  constructor
  · intro k v item s hv hitem hs hnul _
    have hmem : k ∈ vs.map (·.1) := alistGet_mem_keys vs k v hv
    obtain ⟨item', s', hitem', hs', hstored⟩ :=
      serializeFold_get reg (buildItemsMap ut) ut.id vs (vs.map (·.1)) baseline stored
        hfold k hmem
    have hobj : objGet vs k = v := by simp [objGet, hv]
    rw [hobj] at hs'
    rw [hitem] at hitem'
    injection hitem' with hii
    subst hii
    rw [hs] at hs'
    injection hs' with hss
    subst hss
    rw [if_pos hnul] at hstored
    exact hstored
  · intro k _ hnm
    exact serializeFold_frame reg (buildItemsMap ut) ut.id vs (vs.map (·.1))
      baseline stored hfold k hnm

/-- C2 witness: against `personSchema` with baseline
`{name: "old", age: 3}`, encoding `{name: null}` removes `name` and
carries `age` over unchanged. -/
theorem serializeUnitValues_null_removal_witness :
    alistGet [("age", JsVal.number (.fin 3))] "name" = none ∧
    alistGet [("age", JsVal.number (.fin 3))] "age" =
      alistGet [("name", JsVal.string "old"), ("age", JsVal.number (.fin 3))] "age" :=
  ⟨(serializeUnitValues_null_removal (builtinRegistry fixedEnv) personSchema
      [("name", JsVal.null)] [("name", JsVal.string "old"), ("age", JsVal.number (.fin 3))]
      [("age", JsVal.number (.fin 3))] rfl).1 "name" .null ⟨"name", "string", .undefined⟩ .null
      rfl rfl rfl rfl rfl,
    (serializeUnitValues_null_removal (builtinRegistry fixedEnv) personSchema
      [("name", JsVal.null)] [("name", JsVal.string "old"), ("age", JsVal.number (.fin 3))]
      [("age", JsVal.number (.fin 3))] rfl).2 "age" rfl (by simp)⟩

/-! ## C3 — unknown-key rejection. -/

/-- C3 counterexample: with schema item `a : number` and input
`{a: "x", z: 1}` (so `z` is unknown), `serializeUnitValues` throws the
number codec's TypeError for the earlier key `a` — an error that is not
the unknown-item error naming `z` — refuting the claim that the raised
error names the unknown item. -/
theorem serializeUnitValues_unknown_naming_cex :
    serializeUnitValues (builtinRegistry fixedEnv) mixedSchema
        (some [("a", .string "x"), ("z", .number (.fin 1))]) none =
      .error (.typeErr ("Number value must be a finite number, received " ++ "x")) ∧
    ∀ msg, JsErr.typeErr msg ≠
      .genErr ("Unknown data item \"" ++ "z" ++ "\" for unit type \"" ++ "mixed" ++ "\"") :=
  ⟨rfl, fun _ h => JsErr.noConfusion h⟩

/-- C3 amended: an input map with an unknown key always makes
`serializeUnitValues` throw (naming the unknown item only when its key
is reached before any other failure); `validateUnitValues`, whose
unknown-key check runs first, throws an error naming the first unknown
key, and `deserializeUnit` never returns a record for such a payload. -/
theorem unknown_item_rejection :
    (∀ (reg : Registry) (ut : UnitTypeDefinition) (vs : ValueMap)
      (ctx : Option ValueMap) (k : String),
      k ∈ vs.map (·.1) → alistGet (buildItemsMap ut) k = none →
      ∃ e, serializeUnitValues reg ut (some vs) ctx = .error e) ∧
    (∀ (reg : Registry) (ut : UnitTypeDefinition) (vs : ValueMap) (k : String),
      k ∈ vs.map (·.1) → ¬ k ∈ ut.items.map (·.id) →
      ∃ k', k' ∈ vs.map (·.1) ∧ ¬ k' ∈ ut.items.map (·.id) ∧
        validateUnitValues reg ut vs =
          .error (.genErr
            ("Unknown value \"" ++ k' ++ "\" for unit type \"" ++ ut.id ++ "\""))) ∧
    (∀ (env : Env) (reg : Registry) (payload : JsVal) (ut : UnitTypeDefinition)
      (fs : ValueMap) (k : String),
      payload.getProp "values" = .object fs →
      k ∈ fs.map (·.1) → ¬ k ∈ ut.items.map (·.id) →
      ∀ r, deserializeUnit env reg payload ut ≠ .ok r) := by
  refine ⟨?_, ?_, ?_⟩
  · intro reg ut vs ctx k hk hu
    cases hres : serializeUnitValues reg ut (some vs) ctx with
    | error e => exact ⟨e, rfl⟩
    | ok stored =>
      have hfold : (vs.map (·.1)).foldlM
          (serializeStep reg (buildItemsMap ut) ut.id vs) (ctx.getD []) = .ok stored := hres
      obtain ⟨item, _, hitem, _, _⟩ :=
        serializeFold_get reg (buildItemsMap ut) ut.id vs (vs.map (·.1)) (ctx.getD [])
          stored hfold k hk
      rw [hu] at hitem
      exact Option.noConfusion hitem
  · intro reg ut vs k hk hnk
    obtain ⟨k', h1, h2, h3⟩ :=
      firstUnknownKey_exists (ut.items.map (·.id)) (vs.map (·.1)) k hk hnk
    exact ⟨k', h2, h3, by simp [validateUnitValues, h1]⟩
  · intro env reg payload ut fs k hvals hk hnk r hr
    obtain ⟨k', h1, h2, h3⟩ :=
      firstUnknownKey_exists (ut.items.map (·.id)) (fs.map (·.1)) k hk hnk
    have hvu : validateUnitValues reg ut fs =
        .error (.genErr
          ("Unknown value \"" ++ k' ++ "\" for unit type \"" ++ ut.id ++ "\"")) := by
      simp [validateUnitValues, h1]
    rw [deserializeUnit] at hr
    split at hr
    · exact Except.noConfusion hr
    · split at hr
      · rename_i uid heq
        split at hr
        · exact Except.noConfusion hr
        · split at hr
          · rename_i utid hequt
            split at hr
            · exact Except.noConfusion hr
            · split at hr
              · exact Except.noConfusion hr
              · rw [hvals] at hr
                rw [if_neg (by simp [isRecordVal, JsVal.typeName, JsVal.isNull,
                  JsVal.isArr])] at hr
                simp only [Bind.bind, Except.bind] at hr
                simp [hvu] at hr
          · exact Except.noConfusion hr
      · exact Except.noConfusion hr

/-- C3 witness: the spec scenario — schema items `name`,`age` and
values `{name:"A", age:1, extra:"x"}` — exercises all three rejection
facts. -/
theorem unknown_item_rejection_witness :
    (∃ e, serializeUnitValues (builtinRegistry fixedEnv) personSchema
      (some [("name", .string "A"), ("age", .number (.fin 1)), ("extra", .string "x")])
      none = .error e) ∧
    (∃ k', k' ∈ ([("name", JsVal.string "A"), ("age", JsVal.number (.fin 1)),
        ("extra", JsVal.string "x")] : ValueMap).map (·.1) ∧
      ¬ k' ∈ personSchema.items.map (·.id) ∧
      validateUnitValues (builtinRegistry fixedEnv) personSchema
        [("name", .string "A"), ("age", .number (.fin 1)), ("extra", .string "x")] =
        .error (.genErr
          ("Unknown value \"" ++ k' ++ "\" for unit type \"" ++ personSchema.id ++ "\""))) ∧
    ∀ r, deserializeUnit fixedEnv (builtinRegistry fixedEnv) extraPayload personSchema ≠
      .ok r := by
  refine ⟨?_, ?_, ?_⟩
  · exact unknown_item_rejection.1 (builtinRegistry fixedEnv) personSchema
      [("name", .string "A"), ("age", .number (.fin 1)), ("extra", .string "x")] none
      "extra" (by simp) rfl
  · exact unknown_item_rejection.2.1 (builtinRegistry fixedEnv) personSchema
      [("name", .string "A"), ("age", .number (.fin 1)), ("extra", .string "x")]
      "extra" (by simp) (by simp [personSchema])
  · exact unknown_item_rejection.2.2 fixedEnv (builtinRegistry fixedEnv) extraPayload
      personSchema
      [("name", .string "A"), ("age", .number (.fin 1)), ("extra", .string "x")]
      "extra" rfl (by simp) (by simp [personSchema])


/-! ## C8 — no caller-visible mutation on failure (heap model). -/

theorem heapRead_write_ne (h : Heap) (r i : Nat) (o : ValueMap) (hne : i ≠ r) :
    heapRead (heapWrite h r o) i = heapRead h i := by
  unfold heapRead heapWrite
  rw [List.getD_eq_getElem?_getD, List.getD_eq_getElem?_getD,
    List.getElem?_set_ne (Ne.symm hne)]

theorem heapRead_append_lt (h : Heap) (x : ValueMap) (i : Nat) (hi : i < h.length) :
    heapRead (h ++ [x]) i = heapRead h i := by
  unfold heapRead
  rw [List.getD_eq_getElem?_getD, List.getD_eq_getElem?_getD,
    List.getElem?_append_left hi]

/-- The loop writes only through the private reference `bref`; every
other heap cell is untouched, whether or not an iteration fails. -/
theorem aliasFold_frame (reg : Registry) (items : List (String × DataItem))
    (tid : String) (vs : ValueMap) (bref : Nat) :
    ∀ (ks : List String) (h0 : Heap) (acc0 : Except JsErr Unit) (i : Nat), i ≠ bref →
      heapRead (ks.foldl (serializeAliasStep reg items tid vs bref) (h0, acc0)).1 i =
        heapRead h0 i := by
  intro ks
  induction ks with
  | nil => intro h0 acc0 i _; rfl
  | cons k0 rest ih =>
    intro h0 acc0 i hi
    rw [List.foldl_cons]
    cases acc0 with
    | error e => exact ih h0 (.error e) i hi
    | ok u =>
      cases hit : alistGet items k0 with
      | none =>
        rw [show serializeAliasStep reg items tid vs bref (h0, .ok u) k0 =
            (h0, .error (.genErr ("Unknown data item \"" ++ k0 ++ "\" for unit type \"" ++
              tid ++ "\""))) from by simp [serializeAliasStep, hit]]
        exact ih _ _ i hi
      | some item =>
        cases hs : serializeValue reg item.type (objGet vs k0) with
        | error e =>
          rw [show serializeAliasStep reg items tid vs bref (h0, .ok u) k0 =
              (h0, .error e) from by simp [serializeAliasStep, hit, hs]]
          exact ih _ _ i hi
        | ok s =>
          by_cases hnul : s.isNullish
          · rw [show serializeAliasStep reg items tid vs bref (h0, .ok u) k0 =
                (heapWrite h0 bref (alistRemove (heapRead h0 bref) k0), .ok ()) from by
                  simp [serializeAliasStep, hit, hs, hnul]]
            rw [ih _ _ i hi]
            exact heapRead_write_ne h0 bref i _ hi
          · rw [show serializeAliasStep reg items tid vs bref (h0, .ok u) k0 =
                (heapWrite h0 bref (alistSet (heapRead h0 bref) k0 s), .ok ()) from by
                  simp [serializeAliasStep, hit, hs, hnul]]
            rw [ih _ _ i hi]
            exact heapRead_write_ne h0 bref i _ hi

/-- C8: when `serializeUnitValues` throws (unknown item or codec
failure), the caller's `context.existingValues` object is exactly as it
was — the builder allocated `{...existing}` and mutated only that
private copy. -/
theorem serializeUnitValues_baseline_frame (reg : Registry) (ut : UnitTypeDefinition)
    (values : Option ValueMap) (heap : Heap) (r : Nat) (hr : r < heap.length)
    (e : JsErr)
    (herr : (serializeUnitValuesAlias reg ut values heap (some r)).2 = .error e) :
    heapRead (serializeUnitValuesAlias reg ut values heap (some r)).1 r =
      heapRead heap r := by
  cases values with
  | none =>
    simp only [serializeUnitValuesAlias] at herr
    exact Except.noConfusion herr
  | some vs =>
    have key := aliasFold_frame reg (buildItemsMap ut) ut.id vs heap.length
      (vs.map (·.1)) (heap ++ [heapRead heap r]) (.ok ()) r (Nat.ne_of_lt hr)
    rcases hfold : (vs.map (·.1)).foldl
        (serializeAliasStep reg (buildItemsMap ut) ut.id vs heap.length)
        (heap ++ [heapRead heap r], .ok ()) with ⟨h', res⟩
    have h1 : (serializeUnitValuesAlias reg ut (some vs) heap (some r)).1 = h' := by
      simp only [serializeUnitValuesAlias, hfold]
      cases res <;> rfl
    rw [h1]
    rw [hfold] at key
    rw [key]
    exact heapRead_append_lt heap _ r hr

/-! ## C6 — required-field enforcement. -/

theorem requiredCheck_first_error (values result : ValueMap) :
    ∀ (pre : List DataItem) (it : DataItem) (post : List DataItem),
      (∀ j ∈ pre, (j.requiredFlag && (objGet values j.id).isNullish) = false ∧
        (j.requiredFlag && (objGet result j.id).isNullish) = false) →
      it.requiredFlag = true → (objGet values it.id).isNullish = true →
      requiredCheck values result (pre ++ it :: post) =
        .error (.genErr ("Missing required value for data item \"" ++ it.id ++ "\"")) := by
  intro pre
  induction pre with
  | nil =>
    intro it post _ hreq hmiss
    simp [requiredCheck, hreq, hmiss]
  | cons j rest ih =>
    intro it post hpass hreq hmiss
    have hj := hpass j (List.mem_cons_self _ _)
    simp only [List.cons_append, requiredCheck, hj.1, hj.2, Bool.false_eq_true, if_false]
    exact ih it post (fun j' hj' => hpass j' (List.mem_cons_of_mem _ hj')) hreq hmiss

theorem requiredCheck_passes (values result : ValueMap) :
    ∀ (items : List DataItem),
      (∀ it ∈ items, it.requiredFlag = true →
        (objGet values it.id).isNullish = false ∧ (objGet result it.id).isNullish = false) →
      requiredCheck values result items = .ok () := by
  intro items
  induction items with
  | nil => intro _; rfl
  | cons it rest ih =>
    intro hp
    have hit := hp it (List.mem_cons_self _ _)
    by_cases hreq : it.requiredFlag
    · have h1 := (hit hreq).1
      have h2 := (hit hreq).2
      simp only [requiredCheck, hreq, h1, h2, Bool.and_false, Bool.false_eq_true, if_false]
      exact ih (fun j hj => hp j (List.mem_cons_of_mem _ hj))
    · simp only [requiredCheck, Bool.not_eq_true] at hreq ⊢
      simp only [hreq, Bool.false_and, Bool.false_eq_true, if_false]
      exact ih (fun j hj => hp j (List.mem_cons_of_mem _ hj))

/-- A validation failure of the values map propagates out of
`deserializeUnit` once the payload envelope itself is well-formed. -/
theorem deserializeUnit_validate_error (env : Env) (reg : Registry) (payload : JsVal)
    (ut : UnitTypeDefinition) (fs : ValueMap) (uid : String) (e : JsErr)
    (hrec : isRecordVal payload = true)
    (hid : payload.getProp "id" = .string uid) (huid : uid ≠ "")
    (hut : payload.getProp "unitTypeId" = .string ut.id) (hutne : ut.id ≠ "")
    (hvals : payload.getProp "values" = .object fs)
    (hvu : validateUnitValues reg ut fs = .error e) :
    deserializeUnit env reg payload ut = .error e := by
  have hrecfs : isRecordVal (JsVal.object fs) = true := by
    simp [isRecordVal, JsVal.typeName, JsVal.isNull, JsVal.isArr]
  simp [deserializeUnit, hrec, hid, huid, hut, hutne, hvals, hrecfs,
    Bind.bind, Except.bind, hvu]

/-- C6 counterexample: `twoRequiredSchema` declares a required item
`name` and the payload's empty values object omits it, yet
`deserializeUnit` reports the earlier required item `a`, not the
claimed `name` message. -/
theorem required_error_names_first_cex :
    deserializeUnit fixedEnv (builtinRegistry fixedEnv) pairPayload twoRequiredSchema =
      .error (.genErr "Missing required value for data item \"a\"") ∧
    JsErr.genErr "Missing required value for data item \"a\"" ≠
      .genErr "Missing required value for data item \"name\"" :=
  ⟨rfl, by decide⟩

/-- C6 amended: on a well-formed payload whose values pass the
unknown-key check and decode, `deserializeUnit` throws
`Missing required value for data item "<id>"` for the first declared
required item whose raw value is null or absent (in particular for
`name` when it is that item); and the required check itself passes when
every required item has a non-nullish raw and decoded value. -/
theorem required_field_enforcement :
    (∀ (env : Env) (reg : Registry) (payload : JsVal) (ut : UnitTypeDefinition)
      (fs : ValueMap) (uid : String) (result : ValueMap)
      (pre post : List DataItem) (it : DataItem),
      isRecordVal payload = true →
      payload.getProp "id" = .string uid → uid ≠ "" →
      payload.getProp "unitTypeId" = .string ut.id → ut.id ≠ "" →
      payload.getProp "values" = .object fs →
      firstUnknownKey (ut.items.map (·.id)) (fs.map (·.1)) = none →
      deserializeUnitValues reg ut (some fs) = .ok result →
      ut.items = pre ++ it :: post →
      (∀ j ∈ pre, (j.requiredFlag && (objGet fs j.id).isNullish) = false ∧
        (j.requiredFlag && (objGet result j.id).isNullish) = false) →
      it.requiredFlag = true → (objGet fs it.id).isNullish = true →
      deserializeUnit env reg payload ut =
        .error (.genErr ("Missing required value for data item \"" ++ it.id ++ "\""))) ∧
    (∀ (values result : ValueMap) (items : List DataItem),
      (∀ it ∈ items, it.requiredFlag = true →
        (objGet values it.id).isNullish = false ∧ (objGet result it.id).isNullish = false) →
      requiredCheck values result items = .ok ()) := by
  constructor
  · intro env reg payload ut fs uid result pre post it hrec hid huid hut hutne hvals
      hfk hdes hitems hpass hreq hmiss
    have hvu : validateUnitValues reg ut fs =
        .error (.genErr ("Missing required value for data item \"" ++ it.id ++ "\"")) := by
      rw [validateUnitValues, hfk, hitems]
      simp only [Bind.bind, Except.bind, hdes]
      rw [requiredCheck_first_error fs result pre it post hpass hreq hmiss]
    exact deserializeUnit_validate_error env reg payload ut fs uid _ hrec hid huid hut
      hutne hvals hvu
  · exact requiredCheck_passes

/-- C6 witness: the spec scenario — `namedSchema` with required `name`
and an empty values payload yields exactly the claimed message, while a
present non-null `name` passes the required check. -/
theorem required_field_enforcement_witness :
    deserializeUnit fixedEnv (builtinRegistry fixedEnv) namedPayload namedSchema =
      .error (.genErr ("Missing required value for data item \"" ++ "name" ++ "\"")) ∧
    requiredCheck [("name", JsVal.string "A")] [("name", JsVal.string "A")]
      namedSchema.items = .ok () :=
  ⟨required_field_enforcement.1 fixedEnv (builtinRegistry fixedEnv) namedPayload
      namedSchema [] "u1" [("name", JsVal.null)] [] []
      ⟨"name", "string", .object [("required", .boolean true)]⟩
      rfl rfl (by decide) rfl (by decide) rfl rfl rfl rfl (by simp) rfl rfl,
    required_field_enforcement.2 [("name", JsVal.string "A")] [("name", JsVal.string "A")]
      namedSchema.items
      (fun it hit _ => by
        simp [namedSchema] at hit
        subst hit
        exact ⟨rfl, rfl⟩)⟩

/-- C8 witness: a run that fails on the unknown key `z` leaves the
baseline object at reference 0 unchanged. -/
theorem serializeUnitValues_baseline_frame_witness :
    heapRead (serializeUnitValuesAlias (builtinRegistry fixedEnv) mixedSchema
      (some [("z", .number (.fin 1))]) [[("a", JsVal.number (.fin 5))]] (some 0)).1 0 =
      heapRead [[("a", JsVal.number (.fin 5))]] 0 :=
  serializeUnitValues_baseline_frame (builtinRegistry fixedEnv) mixedSchema
    (some [("z", .number (.fin 1))]) [[("a", JsVal.number (.fin 5))]] 0
    (by decide)
    (.genErr ("Unknown data item \"" ++ "z" ++ "\" for unit type \"" ++ "mixed" ++ "\""))
    rfl

/-! ## C9 — timestamp coercion and defaults in `deserializeUnit`. -/

theorem coerceDate_nullish (env : Env) (v : JsVal) (ctx : String)
    (h : v.isNullish = true) : coerceDate env v ctx = .ok none := by
  cases v <;> simp_all [coerceDate, JsVal.isNullish]

/-- Successful deserialization determines the record's timestamps from
the two `coerceDate` results, with the source's default chain. -/
theorem deserializeUnit_ok_inv (env : Env) (reg : Registry) (payload : JsVal)
    (ut : UnitTypeDefinition) (r : UnitRecord)
    (h : deserializeUnit env reg payload ut = .ok r) :
    ∃ co uo,
      coerceDate env (payload.getProp "createdAt") "createdAt" = .ok co ∧
      coerceDate env (payload.getProp "updatedAt") "updatedAt" = .ok uo ∧
      r.createdAt = co.getD env.nowMs ∧
      r.updatedAt = uo.getD (co.getD env.nowMs) := by
  rw [deserializeUnit] at h
  split at h
  · exact Except.noConfusion h
  · split at h
    · rename_i uid heq
      split at h
      · exact Except.noConfusion h
      · split at h
        · rename_i utid hequt
          split at h
          · exact Except.noConfusion h
          · split at h
            · exact Except.noConfusion h
            · simp only [] at h
              split at h
              · exact Except.noConfusion h
              · simp only [Bind.bind, Except.bind] at h
                split at h
                · exact Except.noConfusion h
                · split at h
                  · exact Except.noConfusion h
                  · split at h
                    · exact Except.noConfusion h
                    · rename_i co hco
                      split at h
                      · exact Except.noConfusion h
                      · rename_i uo huo
                        refine ⟨co, uo, hco, huo, ?_, ?_⟩
                        · injection h with h2
                          subst h2
                          rfl
                        · injection h with h2
                          subst h2
                          rfl
        · exact Except.noConfusion h
    · exact Except.noConfusion h

/-- A timestamp value that is present but is not a string, or is a
string the platform cannot parse, makes `coerceDate` throw. -/
theorem coerceDate_invalid_error (env : Env) (v : JsVal) (ctx : String)
    (hnn : v.isNullish = false)
    (hbad : ∀ s, v = .string s → env.parseDate s = none) :
    ∃ e, coerceDate env v ctx = .error e := by
  cases v with
  | string s =>
    exact ⟨.genErr (ctx ++ " must be a valid ISO date string"),
      by simp [coerceDate, JsVal.isNullish, hbad s rfl]⟩
  | null => simp [JsVal.isNullish] at hnn
  | undefined => simp [JsVal.isNullish] at hnn
  | boolean b =>
    exact ⟨.genErr (ctx ++ " must be an ISO string when provided"),
      by simp [coerceDate, JsVal.isNullish]⟩
  | number n =>
    exact ⟨.genErr (ctx ++ " must be an ISO string when provided"),
      by simp [coerceDate, JsVal.isNullish]⟩
  | object fs =>
    exact ⟨.genErr (ctx ++ " must be an ISO string when provided"),
      by simp [coerceDate, JsVal.isNullish]⟩
  | array es =>
    exact ⟨.genErr (ctx ++ " must be an ISO string when provided"),
      by simp [coerceDate, JsVal.isNullish]⟩
  | dateObj ms =>
    exact ⟨.genErr (ctx ++ " must be an ISO string when provided"),
      by simp [coerceDate, JsVal.isNullish]⟩

/-- C9: a payload with a parsable createdAt string and no updatedAt
yields `updatedAt = createdAt`; a payload with neither timestamp gets
both defaulted to the current time; and either timestamp — createdAt or
updatedAt — that is present but not a valid date string (or not a
string) makes deserialization fail. -/
theorem deserializeUnit_timestamp_defaults :
    (∀ (env : Env) (reg : Registry) (payload : JsVal) (ut : UnitTypeDefinition)
      (r : UnitRecord) (s : String) (ms : ℤ),
      deserializeUnit env reg payload ut = .ok r →
      payload.getProp "createdAt" = .string s → env.parseDate s = some ms →
      (payload.getProp "updatedAt").isNullish = true →
      r.createdAt = ms ∧ r.updatedAt = r.createdAt) ∧
    (∀ (env : Env) (reg : Registry) (payload : JsVal) (ut : UnitTypeDefinition)
      (r : UnitRecord),
      deserializeUnit env reg payload ut = .ok r →
      (payload.getProp "createdAt").isNullish = true →
      (payload.getProp "updatedAt").isNullish = true →
      r.createdAt = env.nowMs ∧ r.updatedAt = env.nowMs) ∧
    (∀ (env : Env) (reg : Registry) (payload : JsVal) (ut : UnitTypeDefinition)
      (v : JsVal),
      (payload.getProp "createdAt" = v ∨ payload.getProp "updatedAt" = v) →
      v.isNullish = false →
      (∀ s, v = .string s → env.parseDate s = none) →
      ∀ r, deserializeUnit env reg payload ut ≠ .ok r) := by
  refine ⟨?_, ?_, ?_⟩
  · intro env reg payload ut r s ms hr hcs hparse hnu
    obtain ⟨co, uo, hco, huo, hc, hu⟩ := deserializeUnit_ok_inv env reg payload ut r hr
    rw [hcs] at hco
    simp only [coerceDate, JsVal.isNullish, Bool.false_eq_true, if_false, hparse] at hco
    injection hco with hco2
    rw [coerceDate_nullish env _ _ hnu] at huo
    injection huo with huo2
    subst hco2
    subst huo2
    constructor
    · rw [hc]; rfl
    · rw [hu, hc]; rfl
  · intro env reg payload ut r hr hnc hnu
    obtain ⟨co, uo, hco, huo, hc, hu⟩ := deserializeUnit_ok_inv env reg payload ut r hr
    rw [coerceDate_nullish env _ _ hnc] at hco
    rw [coerceDate_nullish env _ _ hnu] at huo
    injection hco with hco2
    injection huo with huo2
    subst hco2
    subst huo2
    exact ⟨hc, hu⟩
  · intro env reg payload ut v hv hnn hbad r hr
    obtain ⟨co, uo, hco, huo, _, _⟩ := deserializeUnit_ok_inv env reg payload ut r hr
    rcases hv with hv | hv
    · rw [hv] at hco
      obtain ⟨e, he⟩ := coerceDate_invalid_error env v "createdAt" hnn hbad
      rw [he] at hco
      exact Except.noConfusion hco
    · rw [hv] at huo
      obtain ⟨e, he⟩ := coerceDate_invalid_error env v "updatedAt" hnn hbad
      rw [he] at huo
      exact Except.noConfusion huo

/-- C9 witness: under `fixedEnv`, `tsPayload` (createdAt only) produces
matching timestamps, `ntPayload` (no timestamps) stamps both with the
clock, and the payloads with an unparsable createdAt (`badTsPayload`)
or an unparsable updatedAt (`badUpdPayload`) never deserialize. -/
theorem deserializeUnit_timestamp_defaults_witness :
    (tsRecord.createdAt = 1577934245000 ∧ tsRecord.updatedAt = tsRecord.createdAt) ∧
    (ntRecord.createdAt = fixedEnv.nowMs ∧ ntRecord.updatedAt = fixedEnv.nowMs) ∧
    (deserializeUnit fixedEnv (builtinRegistry fixedEnv) badTsPayload personSchema ≠
      .ok tsRecord) ∧
    deserializeUnit fixedEnv (builtinRegistry fixedEnv) badUpdPayload personSchema ≠
      .ok tsRecord :=
  ⟨deserializeUnit_timestamp_defaults.1 fixedEnv (builtinRegistry fixedEnv) tsPayload
      personSchema tsRecord "2020-01-02T03:04:05.000Z" 1577934245000 rfl rfl rfl rfl,
    deserializeUnit_timestamp_defaults.2.1 fixedEnv (builtinRegistry fixedEnv) ntPayload
      personSchema ntRecord rfl rfl rfl,
    deserializeUnit_timestamp_defaults.2.2 fixedEnv (builtinRegistry fixedEnv)
      badTsPayload personSchema (.string "nope") (Or.inl rfl) rfl
      (fun s hs => by injection hs with h2; subst h2; rfl) tsRecord,
    deserializeUnit_timestamp_defaults.2.2 fixedEnv (builtinRegistry fixedEnv)
      badUpdPayload personSchema (.string "nope") (Or.inr rfl) rfl
      (fun s hs => by injection hs with h2; subst h2; rfl) tsRecord⟩

/-! ## C1 — decode-after-encode round trip. -/

theorem alistSet_fresh {α : Type} (l : List (String × α)) (k : String) (v : α)
    (h : alistHas l k = false) : alistSet l k v = l ++ [(k, v)] := by
  induction l with
  | nil => rfl
  | cons e rest ih =>
    simp only [alistHas, alistGet] at h
    by_cases he : e.1 = k
    · simp [he] at h
    · simp only [alistSet, he, if_false, List.cons_append, List.cons.injEq, true_and]
      exact ih (by simpa [alistHas, he] using h)

theorem alistHas_append {α : Type} (l1 l2 : List (String × α)) (k : String) :
    alistHas (l1 ++ l2) k = (alistHas l1 k || alistHas l2 k) := by
  induction l1 with
  | nil => simp [alistHas, alistGet]
  | cons e rest ih =>
    by_cases he : e.1 = k
    · simp [alistHas, alistGet, he]
    · simpa [alistHas, alistGet, he] using ih

theorem alistGet_none_not_mem {α : Type} (l : List (String × α)) (k : String)
    (h : alistGet l k = none) : ¬ k ∈ l.map (·.1) := by
  intro hm
  induction l with
  | nil => cases hm
  | cons e rest ih =>
    by_cases he : e.1 = k
    · simp [alistGet, he] at h
    · simp only [alistGet, he, if_false] at h
      simp only [List.map_cons, List.mem_cons] at hm
      rcases hm with hm | hm
      · exact he hm.symm
      · exact ih h hm

theorem alistGet_map_self (items : List DataItem) :
    ∀ it, (items.map (·.id)).Nodup → it ∈ items →
      alistGet (items.map (fun j => (j.id, j))) it.id = some it := by
  induction items with
  | nil => intro it _ hm; cases hm
  | cons j rest ih =>
    intro it hnd hm
    simp only [List.map_cons, List.nodup_cons] at hnd
    rcases List.mem_cons.mp hm with he | hm'
    · subst he
      simp [alistGet]
    · have hne : j.id ≠ it.id := by
        intro hh
        exact hnd.1 (hh ▸ List.mem_map_of_mem (·.id) hm')
      simp only [List.map_cons, alistGet, hne, if_false]
      exact ih it hnd.2 hm'

theorem nullIfAbsent_of_not_nullish (v : JsVal) (h : v.isNullish = false) :
    nullIfAbsent v = v := by
  cases v <;> simp_all [nullIfAbsent, JsVal.isNullish]

theorem alistGet_set_inv {α : Type} (l : List (String × α)) (k t : String) (v h : α)
    (hg : alistGet (alistSet l k v) t = some h) :
    (t = k ∧ h = v) ∨ alistGet l t = some h := by
  induction l with
  | nil =>
    simp only [alistSet, alistGet] at hg
    split at hg
    · rename_i hkt
      injection hg with hh
      exact Or.inl ⟨hkt.symm, hh.symm⟩
    · exact Option.noConfusion hg
  | cons e rest ih =>
    by_cases he : e.1 = k
    · simp only [alistSet, he, if_true] at hg
      simp only [alistGet] at hg
      split at hg
      · rename_i hkt
        injection hg with hh
        exact Or.inl ⟨hkt.symm, hh.symm⟩
      · rename_i hkt
        right
        simp only [alistGet, he]
        rw [if_neg hkt]
        exact hg
    · simp only [alistSet, he, if_false] at hg
      simp only [alistGet] at hg
      split at hg
      · rename_i het
        injection hg with hh
        right
        simp [alistGet, het, hh]
      · rename_i het
        rcases ih hg with h1 | h2
        · exact Or.inl h1
        · right
          simp only [alistGet, het, if_false]
          exact h2

/-- A property of every registered module is a property of every
handler resolvable from the registry the init loop builds. -/
theorem foldl_register_all (P : KindHandler → Prop) :
    ∀ (mods : List (String × KindHandler)) (reg0 : Registry),
      (∀ m ∈ mods, P m.2) →
      (∀ t h, alistGet reg0 t = some h → P h) →
      ∀ t h, alistGet (mods.foldl (fun reg p =>
          match registerKind reg p.1 p.2 true with
          | .ok r => r
          | .error _ => reg) reg0) t = some h → P h := by
  intro mods
  induction mods with
  | nil => intro reg0 _ h0 t h hg; exact h0 t h hg
  | cons m rest ih =>
    intro reg0 hP h0 t h hg
    rw [List.foldl_cons] at hg
    refine ih (alistSet reg0 m.1 m.2)
      (fun m' hm' => hP m' (List.mem_cons_of_mem _ hm')) ?_ t h ?_
    · intro t' h' hg'
      rcases alistGet_set_inv reg0 m.1 t' m.2 h' hg' with ⟨_, hh⟩ | hg2
      · subst hh
        exact hP m (List.mem_cons_self _ _)
      · exact h0 t' h' hg2
    · exact hg

/-- Every built-in codec decodes `null` to `null`. -/
theorem builtinRegistry_deserialize_null (env : Env) (t : String) (h : KindHandler)
    (hget : getRegisteredKind (builtinRegistry env) t = some h) :
    h.deserialize .null = .ok .null := by
  refine foldl_register_all (fun hh => hh.deserialize .null = .ok .null)
    (builtinModules env) [] ?_ ?_ t h hget
  · intro m hm
    simp only [builtinModules, List.mem_cons, List.not_mem_nil, or_false] at hm
    rcases hm with h1|h1|h1|h1|h1|h1|h1|h1|h1|h1|h1|h1|h1|h1|h1|h1 <;> (subst h1; rfl)
  · intro t' h' hg
    exact Option.noConfusion hg


/-- With item ids unique, the `Map` built by `buildItemsMap` is the item
list itself, keyed by id and in declaration order. -/
theorem items_foldl_set :
    ∀ (items : List DataItem) (acc : List (String × DataItem)),
      (∀ it ∈ items, alistHas acc it.id = false) →
      (items.map (·.id)).Nodup →
      items.foldl (fun m item => alistSet m item.id item) acc =
        acc ++ items.map (fun it => (it.id, it)) := by
  intro items
  induction items with
  | nil => intro acc _ _; simp
  | cons it rest ih =>
    intro acc hfresh hnd
    simp only [List.map_cons, List.nodup_cons] at hnd
    rw [List.foldl_cons, alistSet_fresh acc it.id it (hfresh it (List.mem_cons_self _ _))]
    rw [ih (acc ++ [(it.id, it)]) ?_ hnd.2]
    · simp
    · intro j hj
      rw [alistHas_append]
      have h1 : alistHas acc j.id = false := hfresh j (List.mem_cons_of_mem _ hj)
      have h2 : alistHas [(it.id, it)] j.id = false := by
        have : it.id ≠ j.id := by
          intro hh
          exact hnd.1 (hh ▸ List.mem_map_of_mem (·.id) hj)
        simp [alistHas, alistGet, this]
      rw [h1, h2]
      rfl

theorem buildItemsMap_nodup (ut : UnitTypeDefinition)
    (h : (ut.items.map (·.id)).Nodup) :
    buildItemsMap ut = ut.items.map (fun it => (it.id, it)) := by
  rw [buildItemsMap, items_foldl_set ut.items [] (fun _ _ => rfl) h]
  rfl

theorem deserializeFold_build (reg : Registry) (sv : Option ValueMap)
    (g : String × DataItem → JsVal) :
    ∀ (entries : List (String × DataItem)) (acc : ValueMap),
      (∀ e ∈ entries, deserializeValue reg e.2.type
        (nullIfAbsent (match sv with
          | some m => objGet m e.1
          | none => JsVal.undefined)) = .ok (g e)) →
      (∀ e ∈ entries, alistHas acc e.1 = false) →
      (entries.map (·.1)).Nodup →
      entries.foldlM (deserializeStep reg sv) acc =
        .ok (acc ++ entries.map (fun e => (e.1, g e))) := by
  intro entries
  induction entries with
  | nil => intro acc _ _ _; simp; rfl
  | cons e rest ih =>
    intro acc hvals hfresh hnd
    simp only [List.map_cons, List.nodup_cons] at hnd
    rw [List.foldlM_cons]
    have hstep : deserializeStep reg sv acc e = .ok (acc ++ [(e.1, g e)]) := by
      rw [deserializeStep.eq_def]
      simp only [Bind.bind, Except.bind, hvals e (List.mem_cons_self _ _)]
      rw [alistSet_fresh acc e.1 (g e) (hfresh e (List.mem_cons_self _ _))]
    rw [hstep]
    simp only [Bind.bind, Except.bind]
    rw [ih (acc ++ [(e.1, g e)])
      (fun e' he' => hvals e' (List.mem_cons_of_mem _ he')) ?_ hnd.2]
    · simp
    · intro j hj
      rw [alistHas_append]
      have h1 : alistHas acc j.1 = false := hfresh j (List.mem_cons_of_mem _ hj)
      have h2 : alistHas [(e.1, g e)] j.1 = false := by
        have : e.1 ≠ j.1 := by
          intro hh
          exact hnd.1 (hh ▸ List.mem_map_of_mem (·.1) hj)
        simp [alistHas, alistGet, this]
      rw [h1, h2]
      rfl


set_option maxHeartbeats 2000000 in
/-- C1 amended: for a schema with unique item ids whose kinds are all
registered built-ins, and an accepted business map every value of which
is a fixed point of decode-after-encode for its item's codec (its
canonical decoded shape), decoding the encoded map yields the dense map
binding every schema item to its business value, or null when the map
omits it. -/
theorem roundtrip_amended (env : Env) (ut : UnitTypeDefinition) (vs stored : ValueMap)
    (hids : (ut.items.map (·.id)).Nodup)
    (hreg : ∀ it ∈ ut.items, ∃ h, getRegisteredKind (builtinRegistry env) it.type = some h)
    (hok : serializeUnitValues (builtinRegistry env) ut (some vs) none = .ok stored)
    (hcanon : ∀ k v it, alistGet vs k = some v → alistGet (buildItemsMap ut) k = some it →
      ∃ s, serializeValue (builtinRegistry env) it.type v = .ok s ∧
        deserializeValue (builtinRegistry env) it.type
          (if s.isNullish then .null else s) = .ok v) :
    deserializeUnitValues (builtinRegistry env) ut (some stored) =
      .ok (ut.items.map (fun it => (it.id, (alistGet vs it.id).getD .null))) := by
  have hmap := buildItemsMap_nodup ut hids
  have hfold : (vs.map (·.1)).foldlM
      (serializeStep (builtinRegistry env) (buildItemsMap ut) ut.id vs) [] = .ok stored := hok
  have hpoint : ∀ e ∈ ut.items.map (fun it => (it.id, it)),
      deserializeValue (builtinRegistry env) e.2.type
        (nullIfAbsent (match (some stored : Option ValueMap) with
          | some m => objGet m e.1
          | none => JsVal.undefined)) =
        .ok ((alistGet vs e.1).getD .null) := by
    intro e he
    obtain ⟨it, hit, he2⟩ := List.mem_map.mp he
    subst he2
    show deserializeValue (builtinRegistry env) it.type
      (nullIfAbsent (objGet stored it.id)) = .ok ((alistGet vs it.id).getD .null)
    cases hvk : alistGet vs it.id with
    | some v =>
      have hmem : it.id ∈ vs.map (·.1) := alistGet_mem_keys vs it.id v hvk
      obtain ⟨item', s, hitem', hs', hstored⟩ :=
        serializeFold_get (builtinRegistry env) (buildItemsMap ut) ut.id vs
          (vs.map (·.1)) [] stored hfold it.id hmem
      have hitem2 : alistGet (buildItemsMap ut) it.id = some it := by
        rw [hmap]
        exact alistGet_map_self ut.items it hids hit
      rw [hitem2] at hitem'
      injection hitem' with hii
      subst hii
      obtain ⟨s2, hs2, hdec⟩ := hcanon it.id v it hvk hitem2
      have hov : objGet vs it.id = v := by simp [objGet, hvk]
      rw [hov, hs2] at hs'
      injection hs' with hss
      subst hss
      by_cases hnul : s2.isNullish
      · have hsn : alistGet stored it.id = none := by rw [hstored, if_pos hnul]
        have ho : objGet stored it.id = .undefined := by simp [objGet, hsn]
        rw [ho]
        rw [show nullIfAbsent JsVal.undefined = JsVal.null from rfl]
        rw [if_pos hnul] at hdec
        rw [hdec]
        rfl
      · have hsn : alistGet stored it.id = some s2 := by rw [hstored, if_neg hnul]
        have ho : objGet stored it.id = s2 := by simp [objGet, hsn]
        rw [ho, nullIfAbsent_of_not_nullish s2 (by simpa using hnul)]
        rw [if_neg hnul] at hdec
        rw [hdec]
        rfl
    | none =>
      have hnm : ¬ it.id ∈ vs.map (·.1) := alistGet_none_not_mem vs it.id hvk
      have hsn : alistGet stored it.id = none := by
        rw [serializeFold_frame (builtinRegistry env) (buildItemsMap ut) ut.id vs
          (vs.map (·.1)) [] stored hfold it.id hnm]
        rfl
      have ho : objGet stored it.id = .undefined := by simp [objGet, hsn]
      rw [ho]
      rw [show nullIfAbsent JsVal.undefined = JsVal.null from rfl]
      obtain ⟨h, hh⟩ := hreg it hit
      have hdn : deserializeValue (builtinRegistry env) it.type .null = .ok .null := by
        simp only [deserializeValue, getRegisteredKind] at hh ⊢
        rw [hh]
        exact builtinRegistry_deserialize_null env it.type h hh
      rw [hdn]
      rfl
  show (buildItemsMap ut).foldlM
    (deserializeStep (builtinRegistry env) (some stored)) [] =
    .ok (ut.items.map (fun it => (it.id, (alistGet vs it.id).getD .null)))
  rw [hmap]
  rw [deserializeFold_build (builtinRegistry env) (some stored)
    (fun e => (alistGet vs e.1).getD .null) (ut.items.map (fun it => (it.id, it))) []
    hpoint (fun _ _ => rfl) (by simpa [List.map_map, Function.comp] using hids)]
  simp [List.map_map, Function.comp]


/-- C1 counterexample: for the enum item `status`, the accepted business
map `{status: "go"}` round-trips to `{status: {key: "go"}}` — the
codec's canonical shape — which is not the original map, refuting the
claimed equality for every accepted business map. -/
theorem roundtrip_counterexample :
    serializeUnitValues (builtinRegistry fixedEnv) enumSchema
        (some [("status", .string "go")]) none =
      .ok [("status", .object [("key", .string "go")])] ∧
    deserializeUnitValues (builtinRegistry fixedEnv) enumSchema
        (some [("status", .object [("key", .string "go")])]) =
      .ok [("status", .object [("key", .string "go")])] ∧
    (([("status", JsVal.object [("key", JsVal.string "go")])] : ValueMap) ≠
      [("status", JsVal.string "go")]) :=
  ⟨rfl, rfl, by simp⟩

/-- C1 witness: `{name: "A"}` against `personSchema` (all values
canonical) decodes back to `{name: "A", age: null}`. -/
theorem roundtrip_amended_witness :
    deserializeUnitValues (builtinRegistry fixedEnv) personSchema
        (some [("name", JsVal.string "A")]) =
      .ok [("name", JsVal.string "A"), ("age", JsVal.null)] :=
  roundtrip_amended fixedEnv personSchema [("name", JsVal.string "A")]
    [("name", JsVal.string "A")]
    (by decide)
    (fun it hit => by
      simp only [personSchema, List.mem_cons, List.not_mem_nil, or_false] at hit
      rcases hit with h | h <;> (subst h; exact ⟨_, rfl⟩))
    rfl
    (fun k v it hv hit => by
      rw [show alistGet [("name", JsVal.string "A")] k =
        (if "name" = k then some (JsVal.string "A") else none) from rfl] at hv
      split at hv
      · rename_i hk
        subst hk
        injection hv with hv2
        subst hv2
        rw [show alistGet (buildItemsMap personSchema) "name" =
          some ⟨"name", "string", JsVal.undefined⟩ from rfl] at hit
        injection hit with hit2
        subst hit2
        exact ⟨JsVal.string "A", rfl, rfl⟩
      · exact Option.noConfusion hv)

end CrystalDB
